import Mathlib

/-!
Verification of the AI-summary job pipeline
===========================================

Shallow embedding of the asynchronous job-processing pipeline of the
AI-summary repository (`src/app`), together with theorems settling the
specified properties of the job state machine, error classification,
chunked transcription reassembly, map-reduce summarization, JSON
response parsing, text chunking, retention sweep and segment
estimation.

Conventions used throughout:
* Python strings are Lean `String`s; character-level operations work on
  `String.data`.
* Python floats (media durations, segment timestamps) are modelled as
  rationals (`ℚ`); `round(x, 2)` is round-half-even at two decimals,
  which is Python's rounding rule.
* Machine-external effects (the OpenAI LLM, the `json` standard
  library, ffmpeg/ffprobe, Redis, the RQ queue) are modelled as
  explicit inputs or as small executable models, documented at each
  definition.
* Fallible Python code is embedded with `Except String`; the error
  string plays the role of the exception type name.
-/

namespace AISummary

/-! ## String utilities shared by several source functions -/

/-- Python whitespace characters (`\s` over the ASCII range, which is all
the source's patterns are applied to). -/
def isPyWs (c : Char) : Bool :=
  c = ' ' ∨ c = '\t' ∨ c = '\n' ∨ c = '\r' ∨ c = '\x0b' ∨ c = '\x0c'

/-- ASCII lowercasing, the behaviour of Python's `str.lower` on the ASCII
substrings matched by `_classify_error`. -/
def lowerChar (c : Char) : Char :=
  if 'A' ≤ c ∧ c ≤ 'Z' then Char.ofNat (c.toNat + 32) else c

/-- `msg.lower()` (ASCII fragment). -/
def pyLower (s : String) : String := ⟨s.data.map lowerChar⟩

/-- `pat` is a prefix of `l` (character lists). -/
def listStartsWith : List Char → List Char → Bool
  | [], _ => true
  | _ :: _, [] => false
  | p :: ps, c :: cs => p = c && listStartsWith ps cs

/-- `pat` occurs somewhere inside `l` (character lists). -/
def listHasInfix (pat : List Char) : List Char → Bool
  | [] => listStartsWith pat []
  | c :: cs => listStartsWith pat (c :: cs) || listHasInfix pat cs

/-- Python's `pat in s` substring test. -/
def strContains (s pat : String) : Bool := listHasInfix pat.data s.data

/-- `s[:n]` on a Python string. -/
def pyTake (s : String) (n : ℕ) : String := ⟨s.data.take n⟩

/-- Python `str.strip()` — remove leading and trailing whitespace. -/
def pyStrip (s : String) : String :=
  ⟨((s.data.dropWhile isPyWs).reverse.dropWhile isPyWs).reverse⟩

/-- Python's `sep.join(parts)`. -/
def joinSep (sep : String) : List String → String
  | [] => ""
  | [s] => s
  | s :: rest => s ++ sep ++ joinSep sep rest

/-- Concatenation of a list of strings. -/
def strConcat (l : List String) : String := joinSep "" l

/-- The characters of `s` that are not whitespace, in order.  Two strings
are "equal up to whitespace" when these lists coincide. -/
def nonWsChars (s : String) : List Char := s.data.filter (fun c => !isPyWs c)

/-- Equality of strings up to whitespace. -/
def eqUpToWs (s t : String) : Prop := nonWsChars s = nonWsChars t

/-! ## `_classify_error` (src/app/workers/tasks.py, lines 99–140) -/

/-- The classification record returned by `_classify_error`. -/
structure ErrorClass where
  code : String
  retryable : Bool
  user_message : String
  deriving DecidableEq, Repr

/-- Embedding of `_classify_error` from `src/app/workers/tasks.py`: the
exception is represented by its message `str(exc)`. -/
def classifyError (msg : String) : ErrorClass :=
  let low := pyLower msg
  if strContains low "not a bot" || strContains low "yt-dlp was blocked" ||
      strContains low "cookies" then
    { code := "youtube_auth_required", retryable := false,
      user_message := "YouTube requires valid cookies for this video. Please update YTDLP cookies and retry." }
  else if strContains low "audio duration" && strContains low "maximum for this model" then
    { code := "audio_too_long_for_model", retryable := true,
      user_message := "Audio chunk exceeded model duration limits. Please retry." }
  else if strContains low "rate limit" || strContains low "429" then
    { code := "upstream_rate_limited", retryable := true,
      user_message := "Upstream service rate-limited the request. Please retry shortly." }
  else if strContains low "timeout" || strContains low "timed out" then
    { code := "upstream_timeout", retryable := true,
      user_message := "Processing timed out. Please retry." }
  else if strContains low "ffmpeg conversion failed" then
    { code := "invalid_media_input", retryable := false,
      user_message := "Could not decode this media file. Please upload a valid audio/video format (mp3, m4a, wav, mp4, mov)." }
  else
    { code := "processing_failed", retryable := false,
      user_message := if pyTake msg 300 = "" then "Processing failed." else pyTake msg 300 }

/-! ## JSON values

Python `dict`/`list`/`str`/`int`/`bool`/`None` payloads stored in the
`JSONB` columns of `summary_jobs` and produced by `json.loads`. -/

/-- JSON values.  Objects are insertion-ordered key/value lists, the
representation of a Python `dict`. -/
inductive Json where
  | null
  | bool (b : Bool)
  | num (n : ℤ)
  | str (s : String)
  | arr (elems : List Json)
  | obj (entries : List (String × Json))

/-- Keys of a JSON object (empty for other values). -/
def Json.keys : Json → List String
  | .obj es => es.map Prod.fst
  | _ => []

/-- Lookup in an object's entry list (first binding wins, as in a Python
`dict` where keys are unique). -/
def lookupKey (k : String) : List (String × Json) → Option Json
  | [] => none
  | (k2, v) :: rest => if k2 = k then some v else lookupKey k rest

/-- `d.get(k)` on an object; `none` for non-objects or missing keys. -/
def Json.get (j : Json) (k : String) : Option Json :=
  match j with
  | .obj es => lookupKey k es
  | _ => none

/-! ## The Job record and its mutating operations

`Job` rows (src/app/db/models.py) carry more columns than the claims
touch; the embedding keeps exactly the fields the claims C1–C3 and C9
read or write (`id`, `status`, `progress`, `source_type`, `transcript`,
`summary`, `error`, `created_at`).  `user_id`, `source_meta`,
`summary_style`, `language` and `updated_at` are never mentioned by the
claims and are omitted. -/

/-- A persisted job row. -/
structure JobRecord where
  id : String
  status : String
  progress : ℤ
  source_type : String
  transcript : Option Json
  summary : Option Json
  error : Option Json
  created_at : ℤ

/-- A freshly created job (src/app/api/upload.py line 66 and
src/app/api/youtube.py line 37 create rows with the model defaults
`status="queued"`, `progress=0` and null transcript/summary/error). -/
def initialJob (id source_type : String) (created_at : ℤ) : JobRecord :=
  { id := id, status := "queued", progress := 0, source_type := source_type,
    transcript := none, summary := none, error := none, created_at := created_at }

/-- The error payload written by `cancel_job` for a queued job
(src/app/api/jobs.py line 362). -/
def cancelledPayload : Json :=
  .obj [("code", .str "cancelled"), ("message", .str "Cancelled by user"),
        ("retryable", .bool false)]

/-- Embedding of the `cancel_job` endpoint body (src/app/api/jobs.py,
lines 333–365) acting on the job row; the HTTP 409 conflict is the
`Except.error` case.  The RQ-level `rq_job.cancel()` call touches only
the queue, not the row, and is not modelled. -/
def cancelJob (j : JobRecord) : Except ℕ JobRecord :=
  if j.status = "done" ∨ j.status = "error" ∨ j.status = "cancelled" then
    .error 409
  else if j.status = "running" then
    .ok { j with status := "cancel_requested" }
  else
    .ok { j with status := "cancelled", progress := 0,
                 error := some cancelledPayload }

/-- The pipeline entry point enqueued for a source type
(src/app/api/jobs.py lines 317–322). -/
def pipelineEntry (source_type : String) : String :=
  if source_type = "youtube" then "app.workers.tasks.process_youtube"
  else "app.workers.tasks.process_upload"

/-- Embedding of the `retry_job` endpoint body (src/app/api/jobs.py,
lines 304–330): HTTP 409 for non-error jobs, HTTP 400 for an unexpected
source type, otherwise the mutated row together with the task name
handed to `enqueue_task`. -/
def retryJob (j : JobRecord) : Except ℕ (JobRecord × String) :=
  if j.status ≠ "error" then .error 409
  else if j.source_type = "youtube" ∨ j.source_type = "upload" then
    .ok ({ j with status := "queued", progress := 0, error := none },
         pipelineEntry j.source_type)
  else .error 400

/-! ### Worker-side mutations (src/app/workers/tasks.py)

`process_youtube` and `process_upload` mutate the row through
`_update_job`.  The claim-relevant cumulative updates of one attempt
are: the initial `status="running", progress=5` write, the
`transcript`/progress-80 write, the final `summary`/`status="done"`
write, and the exception handler's `status="error"` write. -/

/-- `_update_job(job_id, status="running", progress=5)` — the first write
of an attempt (tasks.py lines 221/318). -/
def startAttempt (j : JobRecord) : JobRecord :=
  { j with status := "running", progress := 5 }

/-- `_update_job(job_id, transcript=..., progress=80)` (tasks.py lines
275/365). -/
def persistTranscript (j : JobRecord) (t : Json) : JobRecord :=
  { j with transcript := some t, progress := 80 }

/-- `_update_job(job_id, summary=..., status="done", progress=100)` —
successful completion of an attempt (tasks.py lines 290/384–390). -/
def completeAttempt (j : JobRecord) (s : Json) : JobRecord :=
  { j with summary := some s, status := "done", progress := 100 }

/-- `_job_error_payload` (tasks.py lines 143–151); `tb` stands for the
runtime `traceback.format_exc()` text. -/
def jobErrorPayload (excMsg tb : String) : Json :=
  let cls := classifyError excMsg
  .obj [("code", .str cls.code), ("retryable", .bool cls.retryable),
        ("message", .str cls.user_message),
        ("debug_message", .str (pyTake excMsg 600)),
        ("detail", .str (pyTake tb 2000))]

/-- `_update_job(job_id, status="error", error=_job_error_payload(exc))`
— the exception handler of an attempt (tasks.py lines 296–300 and
396–400). -/
def failAttempt (j : JobRecord) (excMsg tb : String) : JobRecord :=
  { j with status := "error", error := some (jobErrorPayload excMsg tb) }

/-- A bare progress update issued by `_make_progress_cb` or the
intermediate `_update_job(..., progress=p)` calls. -/
def setProgress (j : JobRecord) (p : ℤ) : JobRecord := { j with progress := p }

/-! ### The job transition system

One transition per mutating operation, with the enabling conditions the
system provides: the queue delivers an attempt for a queued job, and
the worker's writes happen while its attempt is active, i.e. while the
row is `running` (or `cancel_requested`, which only the cancel endpoint
can set mid-attempt).  The exception handler can also fire from
`queued` — an exception may be raised before the `running` write.
Operations are sequential (single-row read-modify-write, §5 of the
spec); true interleavings are outside the embedding. -/

/-- A worker currently owns an attempt on this row. -/
def attemptActive (j : JobRecord) : Prop :=
  j.status = "running" ∨ j.status = "cancel_requested"

/-- One mutating operation on a job row.  The `complete` transition
carries `transcript.isSome` because the worker's done-write (tasks.py
line 290/384) always executes after its transcript write (line 275/365)
within the same attempt, and no operation ever clears `transcript`. -/
inductive Step : JobRecord → JobRecord → Prop where
  | start (j : JobRecord) : j.status = "queued" → Step j (startAttempt j)
  | progress (j : JobRecord) (p : ℤ) : attemptActive j → Step j (setProgress j p)
  | transcript (j : JobRecord) (t : Json) : attemptActive j →
      Step j (persistTranscript j t)
  | complete (j : JobRecord) (s : Json) : attemptActive j →
      j.transcript.isSome → Step j (completeAttempt j s)
  | fail (j : JobRecord) (excMsg tb : String) :
      j.status = "queued" ∨ attemptActive j → Step j (failAttempt j excMsg tb)
  | retry (j j2 : JobRecord) (task : String) :
      retryJob j = .ok (j2, task) → Step j j2
  | cancel (j j2 : JobRecord) : cancelJob j = .ok j2 → Step j j2

/-- Job rows reachable from creation by the mutating operations. -/
inductive Reach : JobRecord → Prop where
  | init (id source_type : String) (created_at : ℤ) :
      Reach (initialJob id source_type created_at)
  | step {j j2 : JobRecord} : Reach j → Step j j2 → Reach j2

/-- The job-store invariant that actually holds on every reachable row:
the spec's `status=error ⇔ error≠null` weakens to
`error≠null ⇒ status ∈ {error, cancelled}` because cancelling a queued
job records a `cancelled` error payload. -/
def jobInvariant (j : JobRecord) : Prop :=
  (j.status = "error" → j.error.isSome) ∧
  (j.error.isSome → j.status = "error" ∨ j.status = "cancelled") ∧
  (j.status = "done" → j.transcript.isSome ∧ j.summary.isSome) ∧
  (j.status = "queued" ∨ j.status = "running" ∨ j.status = "cancel_requested" →
    j.error = none)

/-! ## Retention sweep (src/app/workers/tasks.py, lines 154–204)

`_maybe_run_retention_cleanup` acquires a Redis `SET NX` lock
(`gotLock`), selects job rows with
`created_at < now - timedelta(hours=job_retention_hours)` and
`status IN ('done', 'error')`, limited to
`retention_cleanup_batch_size`, and deletes them.  The blob-TTL
normalization loop (lines 189–202) touches only Redis keys, never job
rows.  Times are epoch seconds (`ℤ`). -/

/-- The set of job rows deleted by one sweep invocation. -/
def retentionSweepDeleted (gotLock : Bool) (nowSec retentionHours : ℤ)
    (batchSize : ℕ) (jobs : List JobRecord) : List JobRecord :=
  if gotLock then
    (jobs.filter (fun j =>
      decide (j.created_at < nowSec - retentionHours * 3600) &&
        (j.status = "done" || j.status = "error"))).take batchSize
  else []

/-- An old terminal job row (for the retention witness). -/
def jobOldDone : JobRecord :=
  { initialJob "old1" "upload" 0 with
    status := "done",
    transcript := some (.obj []), summary := some (.obj []) }

/-- A freshly created job row (for the retention witness). -/
def jobYoungDone : JobRecord :=
  { initialJob "young1" "upload" 999000 with
    status := "done",
    transcript := some (.obj []), summary := some (.obj []) }

/-! ## Two-decimal rounding

Python's `round(x, 2)` rounds half to even.  Floats are modelled as
rationals; on the dyadic inputs used by the concrete theorems the two
agree exactly. -/

/-- Round half to even to an integer. -/
def roundHalfEven (q : ℚ) : ℤ :=
  if q - ⌊q⌋ < 1/2 then ⌊q⌋
  else if 1/2 < q - ⌊q⌋ then ⌊q⌋ + 1
  else if ⌊q⌋ % 2 = 0 then ⌊q⌋ else ⌊q⌋ + 1

/-- `round(q, 2)`. -/
def round2 (q : ℚ) : ℚ := (roundHalfEven (100 * q) : ℚ) / 100

/-! ## Chunked transcription reassembly
(src/app/services/transcribe.py, lines 120–196)

`transcribe_file` converts the media file, splits it into chunk files,
transcribes each chunk and merges the results.  The external effects —
the per-chunk OpenAI response (`text`, `segments`, `language`) and the
chunk duration reported by ffprobe — are the fields of `ChunkResp`; the
merge loop (lines 144–196) is embedded as `mergeLoop`.  A falsy
(missing/empty) response language is the empty string, matching the
code's truthiness test. -/

/-- A transcript segment `{start, end, text}`; `end_` stands for the
source's `end` key, which is a reserved word in Lean. -/
structure Seg where
  start : ℚ
  end_ : ℚ
  text : String
  deriving DecidableEq, Repr

/-- One chunk's transcription response plus the chunk's ffprobe
duration. -/
structure ChunkResp where
  text : String
  segments : List Seg
  language : String
  duration : ℚ
  deriving DecidableEq, Repr

/-- The result dataclass of `transcribe_file`. -/
structure TranscriptResult where
  text : String
  segments : List Seg
  language : String
  deriving DecidableEq, Repr

/-- The chunk loop of `transcribe_file` (lines 149–189): collects the
response texts in order, re-bases each sub-segment's timestamps by the
running `time_offset` (rounded to two decimals), advances the offset by
the chunk duration, and keeps the last non-empty response language. -/
def mergeLoop : List ChunkResp → ℚ → String → List String × List Seg × String
  | [], _, lang => ([], [], lang)
  | c :: rest, off, lang =>
    let segs := c.segments.map (fun s =>
      { start := round2 (s.start + off), end_ := round2 (s.end_ + off),
        text := s.text : Seg })
    let lang2 := if c.language = "" then lang else c.language
    let r := mergeLoop rest (off + c.duration) lang2
    (c.text :: r.1, segs ++ r.2.1, r.2.2)

/-- The tail of `transcribe_file` (lines 195–196): join the chunk texts
with spaces, strip, and package the merged segments. -/
def transcribeMerge (chunks : List ChunkResp) : TranscriptResult :=
  let r := mergeLoop chunks 0 "unknown"
  { text := pyStrip (joinSep " " r.1), segments := r.2.1, language := r.2.2 }

/-! ## Sentence splitting

`re.split(r"(?<=[.!?])\s+", text)` is used by `_chunk_text`
(src/app/services/summarize.py line 34) and, with post-stripping and
empty filtering, by `_estimate_segments_from_text`
(src/app/workers/tasks.py line 62): the text is cut after every
`.`/`!`/`?` that is followed by whitespace, and the whitespace run is
consumed.  The fuel argument (initialised to the text length, which one
character per step makes sufficient) keeps the recursion structural. -/

/-- A sentence-ending punctuation character (the `[.!?]` class). -/
def isSentEnd (c : Char) : Bool := c = '.' ∨ c = '!' ∨ c = '?'

/-- Head character is whitespace. -/
def headIsWs : List Char → Bool
  | [] => false
  | c :: _ => isPyWs c

/-- Worker for `re.split(r"(?<=[.!?])\s+", ·)`. -/
def splitSentencesAux : ℕ → List Char → List Char → List (List Char)
  | _, [], acc => [acc.reverse]
  | 0, l, acc => [acc.reverse ++ l]
  | fuel + 1, c :: rest, acc =>
    if isSentEnd c && headIsWs rest then
      (acc.reverse ++ [c]) :: splitSentencesAux fuel (rest.dropWhile isPyWs) []
    else
      splitSentencesAux fuel rest (c :: acc)

/-- `re.split(r"(?<=[.!?])\s+", s)`. -/
def pySplitSentences (s : String) : List String :=
  (splitSentencesAux s.data.length s.data []).map (fun cs => String.mk cs)

/-! ## Text chunking for summarization
(src/app/services/summarize.py, lines 23–52) -/

/-- `CHARS_PER_TOKEN = 4`. -/
def CHARS_PER_TOKEN : ℕ := 4

/-- `CHUNK_TOKENS = 10_000`. -/
def CHUNK_TOKENS : ℕ := 10000

/-- `_estimate_tokens`. -/
def estimateTokens (text : String) : ℕ := text.length / CHARS_PER_TOKEN

/-- Total character count of a sentence group (without join spaces). -/
def sumLens (g : List String) : ℕ := (g.map String.length).sum

/-- The sentence-accumulation loop of `_chunk_text` (lines 39–50). -/
def chunkLoop (maxChars : ℕ) : List String → List String → ℕ → List String
  | [], current, _ => if current = [] then [] else [joinSep " " current]
  | s :: rest, current, currentLen =>
    if maxChars < currentLen + s.length ∧ current ≠ [] then
      joinSep " " current :: chunkLoop maxChars rest [s] s.length
    else
      chunkLoop maxChars rest (current ++ [s]) (currentLen + s.length)

/-- The same loop, collecting the sentence groups instead of their
space-joins (used to state which sentences each chunk consists of). -/
def chunkGroups (maxChars : ℕ) : List String → List String → ℕ → List (List String)
  | [], current, _ => if current = [] then [] else [current]
  | s :: rest, current, currentLen =>
    if maxChars < currentLen + s.length ∧ current ≠ [] then
      current :: chunkGroups maxChars rest [s] s.length
    else
      chunkGroups maxChars rest (current ++ [s]) (currentLen + s.length)

/-- Embedding of `_chunk_text` (lines 27–52). -/
def chunkText (text : String) (maxTokens : ℕ := CHUNK_TOKENS) : List String :=
  let maxChars := maxTokens * CHARS_PER_TOKEN
  if text.length ≤ maxChars then [text]
  else chunkLoop maxChars (pySplitSentences text) [] 0

/-! ## Segment estimation fallback
(src/app/workers/tasks.py, lines 54–85) -/

/-- `[s.strip() for s in re.split(r"(?<=[.!?])\s+", text) if s.strip()]`
(tasks.py line 62). -/
def sentencesOf (text : String) : List String :=
  ((pySplitSentences text).map pyStrip).filter (fun s => decide (s ≠ ""))

/-- `segment_count = max(1, min(max(6, n // 3), 40))` (tasks.py lines
66–67). -/
def segmentCountFor (n : ℕ) : ℕ := max 1 (min (max 6 (n / 3)) 40)

/-- `step = max(1, (n + segment_count - 1) // segment_count)` (tasks.py
line 68). -/
def stepFor (n : ℕ) : ℕ :=
  max 1 ((n + segmentCountFor n - 1) / segmentCountFor n)

/-- `[sentences[i : i + step] for i in range(0, len(sentences), step)]`
— fuelled so that it reduces structurally; `listChunks` supplies fuel
equal to the list length, which suffices because every iteration
consumes at least one element. -/
def listChunksAux (step : ℕ) : ℕ → List String → List (List String)
  | _, [] => []
  | 0, l => [l]
  | fuel + 1, x :: xs =>
    (x :: xs.take (step - 1)) :: listChunksAux step fuel (xs.drop (step - 1))

/-- Python's stride-`step` slicing of a list into consecutive groups. -/
def listChunks (step : ℕ) (l : List String) : List (List String) :=
  listChunksAux step l.length l

/-- Embedding of `_estimate_segments_from_text` (tasks.py lines 54–85):
build approximate segments when the ASR backend returns no
timestamps. -/
def estimateSegments (text : String) (durationSeconds : ℚ) : List Seg :=
  if text = "" ∨ durationSeconds ≤ 0 then []
  else
    let sentences := sentencesOf text
    if sentences = [] then []
    else
      let step := stepFor sentences.length
      let groups := listChunks step sentences
      if groups.length = 0 then []
      else
        groups.enum.map (fun p =>
          { start := round2 (durationSeconds * p.1 / groups.length),
            end_ := round2 (durationSeconds * (p.1 + 1) / groups.length),
            text := joinSep " " p.2 : Seg })

/-! ## A model of `json.loads`

`json` is the Python standard library, external to the repository.
`loadsModel` is an executable model of `json.loads` on the fragment the
theorems exercise: `null`/`true`/`false`, integers, strings without
escape sequences, arrays and objects, with standard JSON whitespace.
Floats and string escapes are outside the fragment (the parser answers
`none` there); every concrete input used below is inside the fragment
and agrees with CPython.  The universally quantified claim theorems
never depend on the behaviour outside the fragment. -/

/-- JSON whitespace (space, tab, newline, carriage return). -/
def isJsonWs (c : Char) : Bool := c = ' ' ∨ c = '\t' ∨ c = '\n' ∨ c = '\r'

/-- Skip JSON whitespace. -/
def skipJsonWs (cs : List Char) : List Char := cs.dropWhile isJsonWs

/-- String body parser: characters up to an unescaped `"`; escape
sequences are outside the modelled fragment. -/
def parseStrBody : List Char → List Char → Option (String × List Char)
  | [], _ => none
  | '"' :: rest, acc => some (String.mk acc.reverse, rest)
  | '\\' :: _, _ => none
  | c :: rest, acc => parseStrBody rest (c :: acc)

/-- Decimal digits to a natural number. -/
def digitsToNat (ds : List Char) : ℕ :=
  ds.foldl (fun acc c => acc * 10 + (c.toNat - 48)) 0

mutual

/-- Parse one JSON value (fuelled recursion). -/
def parseValue : ℕ → List Char → Option (Json × List Char)
  | 0, _ => none
  | fuel + 1, cs =>
    let cs2 := skipJsonWs cs
    if listStartsWith "null".data cs2 then some (.null, cs2.drop 4)
    else if listStartsWith "true".data cs2 then some (.bool true, cs2.drop 4)
    else if listStartsWith "false".data cs2 then some (.bool false, cs2.drop 5)
    else
      match cs2 with
      | '"' :: rest => (parseStrBody rest []).map (fun p => (.str p.1, p.2))
      | '[' :: rest =>
        (match skipJsonWs rest with
         | ']' :: rest2 => some (.arr [], rest2)
         | _ => parseArrItems fuel rest [])
      | '{' :: rest =>
        (match skipJsonWs rest with
         | '}' :: rest2 => some (.obj [], rest2)
         | _ => parseObjItems fuel rest [])
      | '-' :: rest =>
        (match rest.span Char.isDigit with
         | ([], _) => none
         | (ds, rest2) =>
           if decide (rest2.head? = some '.') ||
               decide (rest2.head? = some 'e') || decide (rest2.head? = some 'E') then
             none
           else some (.num (-(digitsToNat ds : ℤ)), rest2))
      | c :: _ =>
        if c.isDigit then
          (match cs2.span Char.isDigit with
           | (ds, rest2) =>
             if decide (rest2.head? = some '.') ||
                 decide (rest2.head? = some 'e') || decide (rest2.head? = some 'E') then
               none
             else some (.num (digitsToNat ds : ℤ), rest2))
        else none
      | [] => none

/-- Parse the items of a non-empty array, after `[`. -/
def parseArrItems : ℕ → List Char → List Json → Option (Json × List Char)
  | 0, _, _ => none
  | fuel + 1, cs, acc =>
    match parseValue fuel cs with
    | none => none
    | some (v, rest) =>
      match skipJsonWs rest with
      | ',' :: rest2 => parseArrItems fuel rest2 (v :: acc)
      | ']' :: rest2 => some (.arr (v :: acc).reverse, rest2)
      | _ => none

/-- Parse the entries of a non-empty object, after `{`. -/
def parseObjItems : ℕ → List Char → List (String × Json) →
    Option (Json × List Char)
  | 0, _, _ => none
  | fuel + 1, cs, acc =>
    match skipJsonWs cs with
    | '"' :: rest =>
      (match parseStrBody rest [] with
       | none => none
       | some (k, rest2) =>
         match skipJsonWs rest2 with
         | ':' :: rest3 =>
           (match parseValue fuel rest3 with
            | none => none
            | some (v, rest4) =>
              match skipJsonWs rest4 with
              | ',' :: rest5 => parseObjItems fuel rest5 ((k, v) :: acc)
              | '}' :: rest5 => some (.obj ((k, v) :: acc).reverse, rest5)
              | _ => none)
         | _ => none)
    | _ => none

end

/-- Model of `json.loads`: parse one value and require only trailing
whitespace. -/
def loadsModel (s : String) : Option Json :=
  match parseValue (2 * s.length + 2) s.data with
  | some (v, rest) => if skipJsonWs rest = [] then some v else none
  | none => none

/-! ## `_parse_json` (src/app/services/summarize.py, lines 141–154)

The two regular expressions are modelled by their match semantics:
`findFenced` is the leftmost match of
`` ```(?:json)?\s*(\{.*?\})\s*``` `` with DOTALL (lazy group: the
earliest closing brace whose tail is whitespace and a fence), and
`braceSpan` is the leftmost greedy match of `\{.*\}` with DOTALL, i.e.
the span from the first `{` to the last `}` when that span exists. -/

/-- Scan for the lazy group `(\{.*?\})` followed by `\s*` and a fence:
the first `}` whose remainder, after whitespace, opens with ```` ``` ````. -/
def groupScan (acc : List Char) : List Char → Option (List Char)
  | [] => none
  | c :: rest =>
    if c = '}' && listStartsWith "```".data (rest.dropWhile isPyWs) then
      some (acc.reverse ++ [c])
    else groupScan (c :: acc) rest

/-- Try to match the fenced-block regex starting exactly here. -/
def fencedFrom (cs : List Char) : Option (List Char) :=
  if listStartsWith "```".data cs then
    let r1 := cs.drop 3
    let r2 := if listStartsWith "json".data r1 then r1.drop 4 else r1
    let r3 := r2.dropWhile isPyWs
    match r3 with
    | '{' :: _ => groupScan [] r3
    | _ => none
  else none

/-- Leftmost match of the fenced-block regex; returns group 1. -/
def findFencedAux : List Char → Option (List Char)
  | [] => none
  | c :: rest =>
    match fencedFrom (c :: rest) with
    | some g => some g
    | none => findFencedAux rest

/-- `re.search(r"```(?:json)?\s*(\{.*?\})\s*```", raw, re.DOTALL)`,
group 1. -/
def findFenced (s : String) : Option String :=
  (findFencedAux s.data).map (fun cs => String.mk cs)

/-- `re.search(r"\{.*\}", raw, re.DOTALL)`, group 0: the span from the
first `{` to the last `}`, when the last `}` comes after the first
`{`. -/
def braceSpan (s : String) : Option String :=
  let pre := s.data.takeWhile (fun c => !(c = '{'))
  if pre.length = s.data.length then none
  else
    let fromBrace := s.data.drop pre.length
    let upToLast := (fromBrace.reverse.dropWhile (fun c => !(c = '}'))).reverse
    if upToLast = [] then none else some (String.mk upToLast)

/-- Embedding of `_parse_json` (summarize.py lines 141–154): parse
as-is; else the fenced block's group (a parse failure there raises,
because only the first `json.loads` call is inside the `try`); else the
first-to-last brace span (again raising on a parse failure); else
return the empty dict. -/
def pyParseJson (raw : String) : Except String Json :=
  match loadsModel raw with
  | some v => .ok v
  | none =>
    match findFenced raw with
    | some g =>
      (match loadsModel g with
       | some v => .ok v
       | none => .error "JSONDecodeError")
    | none =>
      match braceSpan raw with
      | some g =>
        (match loadsModel g with
         | some v => .ok v
         | none => .error "JSONDecodeError")
      | none => .ok (.obj [])

/-! ## `generate_summary` (src/app/services/summarize.py, lines 160–238)

The OpenAI chat completion (`_call_llm`) is the oracle
`llm : String → String → String` mapping the system and user prompts to
the provider's response; the retry loop inside `_call_llm` does not
change the successful response.  Python dict mutation is embedded with
`jsonSetKey`/`jsonSetDefault`, which raise (return `Except.error`) on
non-dict values exactly where Python would raise `TypeError`/
`AttributeError`. -/

/-- `d.setdefault(k, v)` on the entry list: keep an existing binding,
otherwise append `(k, v)`. -/
def setDefaultEntries (es : List (String × Json)) (k : String) (v : Json) :
    List (String × Json) :=
  if (lookupKey k es).isSome then es else es ++ [(k, v)]

/-- `d.setdefault(k, v)`; raises `AttributeError` on non-dicts. -/
def jsonSetDefault (j : Json) (k : String) (v : Json) : Except String Json :=
  match j with
  | .obj es => .ok (.obj (setDefaultEntries es k v))
  | _ => .error "AttributeError"

/-- `d[k] = v` on the entry list: replace in place, or append. -/
def setKeyEntries (es : List (String × Json)) (k : String) (v : Json) :
    List (String × Json) :=
  if (lookupKey k es).isSome then
    es.map (fun p => if p.1 = k then (k, v) else p)
  else es ++ [(k, v)]

/-- `d[k] = v`; raises `TypeError` on non-dicts. -/
def jsonSetKey (j : Json) (k : String) (v : Json) : Except String Json :=
  match j with
  | .obj es => .ok (.obj (setKeyEntries es k v))
  | _ => .error "TypeError"

/-- The `summary.setdefault(...)` block of `generate_summary`
(summarize.py lines 220–224): ensure the five required fields exist,
defaulting missing ones to empty. -/
def ensureRequired (j : Json) : Except String Json := do
  let s1 ← jsonSetDefault j "tl_dr" (.str "")
  let s2 ← jsonSetDefault s1 "key_points" (.arr [])
  let s3 ← jsonSetDefault s2 "outline" (.arr [])
  let s4 ← jsonSetDefault s3 "action_items" (.arr [])
  jsonSetDefault s4 "timestamps" (.arr [])

/-- `STYLE_INSTRUCTIONS` (summarize.py lines 57–61). -/
def styleInstructions (style : String) : Option String :=
  if style = "short" then
    some "Create a very concise summary: 2-3 sentence TL;DR, 3-5 key points, brief outline. Skip action items if none obvious."
  else if style = "medium" then
    some "Create a balanced summary: 3-5 sentence TL;DR, 5-8 key points, structured outline with subsections. Include action items if present."
  else if style = "detailed" then
    some "Create a comprehensive detailed summary: thorough TL;DR paragraph, 8-15 key points, detailed outline with nested subsections, all action items, and important quotes."
  else none

/-- `STYLE_INSTRUCTIONS.get(style, STYLE_INSTRUCTIONS["medium"])`. -/
def styleInstruction (style : String) : String :=
  (styleInstructions style).getD
    "Create a balanced summary: 3-5 sentence TL;DR, 5-8 key points, structured outline with subsections. Include action items if present."

/-- `CHUNK_SYSTEM` (summarize.py lines 63–77); literal braces are
written `\x7b`/`\x7d`. -/
def CHUNK_SYSTEM : String :=
  "You are an expert content analyst. Analyze the following section of a transcript.\nExtract:\n- Main ideas and key points\n- Important details, names, terms, numbers\n- Any action items or recommendations mentioned\n- Notable quotes or statements\n\nPreserve all proper nouns, technical terms, and specific references.\nRespond ONLY with valid JSON:\n\x7b\n  \"main_ideas\": [\"...\"],\n  \"key_details\": [\"...\"],\n  \"action_items\": [\"...\"],\n  \"terms\": [\"...\"]\n\x7d"

/-- `SYNTHESIS_SYSTEM_TEMPLATE.format(...)` (summarize.py lines
79–102). -/
def synthesisSystem (styleInstr langInstr : String) : String :=
  "You are an expert content analyst. Based on the section analyses below, create a unified summary of the entire transcript.\n\n"
    ++ styleInstr
    ++ "\n\nLanguage for the summary: "
    ++ langInstr
    ++ "\n\nYou MUST respond ONLY with valid JSON in this exact structure:\n\x7b\n  \"tl_dr\": \"...\",\n  \"key_points\": [\"...\", \"...\"],\n  \"outline\": [\n    \x7b\"title\": \"Section Title\", \"points\": [\"...\", \"...\"]\x7d,\n  ],\n  \"action_items\": [\"...\", \"...\"],\n  \"timestamps\": []\n\x7d\n\nRules:\n- tl_dr: A concise overview.\n- key_points: Most important takeaways.\n- outline: Logical structure of the content.\n- action_items: Actionable recommendations (empty list if none).\n- timestamps: Leave as empty list (will be populated separately if available).\n- All text must be in the specified language."

/-- `TIMESTAMP_SYSTEM.format(...)` (summarize.py lines 104–110). -/
def timestampSystem (langInstr : String) : String :=
  "You are an expert at identifying important moments in transcripts.\nGiven a transcript with timestamps, identify the 5-15 most important moments.\nRespond ONLY with valid JSON array:\n[\n  \x7b\"t\": \"HH:MM:SS\", \"label\": \"Brief description of what happens at this point\"\x7d\n]\nLanguage for labels: "
    ++ langInstr

/-- The output-language instruction (summarize.py lines 176–181). -/
def languageInstruction (language detectedLanguage : String) : String :=
  if language = "auto" then
    "Use the same language as the transcript (detected: " ++ detectedLanguage ++ ")"
  else if language = "ru" then "Write the summary in Russian (Русский)"
  else "Write the summary in English"

mutual

/-- Compact rendering of `json.dumps(a, ensure_ascii=False, indent=1)`
(the exact indentation is irrelevant: the string only feeds the LLM
oracle). -/
def jsonDumps : Json → String
  | .null => "null"
  | .bool b => if b then "true" else "false"
  | .num n => toString n
  | .str s => "\"" ++ s ++ "\""
  | .arr xs => "[" ++ jsonDumpsList xs ++ "]"
  | .obj es => "\x7b" ++ jsonDumpsEntries es ++ "\x7d"

/-- Render array elements. -/
def jsonDumpsList : List Json → String
  | [] => ""
  | [x] => jsonDumps x
  | x :: xs => jsonDumps x ++ ", " ++ jsonDumpsList xs

/-- Render object entries. -/
def jsonDumpsEntries : List (String × Json) → String
  | [] => ""
  | [(k, v)] => "\"" ++ k ++ "\": " ++ jsonDumps v
  | (k, v) :: es => "\"" ++ k ++ "\": " ++ jsonDumps v ++ ", " ++ jsonDumpsEntries es

end

/-- `_seconds_to_hms` (summarize.py lines 257–263); `int()` truncation
coincides with the floor on the non-negative starts it is applied
to. -/
def pad2 (n : ℤ) : String := if n < 10 then "0" ++ toString n else toString n

/-- Convert seconds to `HH:MM:SS`. -/
def secondsToHms (seconds : ℚ) : String :=
  let s : ℤ := ⌊seconds⌋
  pad2 (s / 3600) ++ ":" ++ pad2 ((s % 3600) / 60) ++ ":" ++ pad2 (s % 60)

/-- The accumulation loop of `_build_timestamped_text` (summarize.py
lines 241–254): the running total counts a line before deciding to
break, and the loop stops at the first overflowing line. -/
def buildTsAux (maxChars : ℕ) : List Seg → List String → ℕ → List String
  | [], acc, _ => acc
  | seg :: rest, acc, total =>
    let line := "[" ++ secondsToHms seg.start ++ "] " ++ seg.text
    let total2 := total + line.length
    if maxChars < total2 then acc
    else buildTsAux maxChars rest (acc ++ [line]) total2

/-- `_build_timestamped_text(segments)` with the default 30000-char
budget. -/
def buildTimestampedText (segments : List Seg) : String :=
  joinSep "\n" (buildTsAux 30000 segments [] 0)

/-- `a.get("_chunk_index", i)` in the reduce step (summarize.py line
209); the key always holds the integer the map step wrote. -/
def sectionIndex (a : Json) (i : ℕ) : ℤ :=
  match a.get "_chunk_index" with
  | some (.num n) => n
  | _ => (i : ℤ)

/-- The map step of `generate_summary` (summarize.py lines 198–205):
analyze each chunk and tag the analysis with its chunk index; a parse
failure (or a non-dict parse result) raises out of the whole call. -/
def mapAnalyses (llm : String → String → String) (total : ℕ) :
    List (ℕ × String) → Except String (List Json)
  | [] => .ok []
  | (i, chunk) :: rest => do
    let raw := llm CHUNK_SYSTEM
      ("Section " ++ toString (i + 1) ++ "/" ++ toString total ++ ":\n\n" ++ chunk)
    let analysis ← pyParseJson raw
    let analysis2 ← jsonSetKey analysis "_chunk_index" (.num i)
    let restAnalyses ← mapAnalyses llm total rest
    .ok (analysis2 :: restAnalyses)

/-- The optional timestamp pass of `generate_summary` (summarize.py
lines 227–236): any failure — an unparsable response or a non-list —
is swallowed and the summary is returned unchanged. -/
def applyTimestamps (llm : String → String → String) (langInstr : String)
    (segments : Option (List Seg)) (summary : Json) : Json :=
  match segments with
  | none => summary
  | some segs =>
    if 3 < segs.length then
      let rawTs := llm (timestampSystem langInstr) (buildTimestampedText segs)
      match loadsModel rawTs with
      | some (.arr ts) =>
        (match jsonSetKey summary "timestamps" (.arr ts) with
         | .ok s2 => s2
         | .error _ => summary)
      | _ => summary
    else summary

/-- The summary-producing half of `generate_summary` (summarize.py
lines 185–217): single-pass synthesis for one chunk, map-reduce for
several. -/
def summaryCore (llm : String → String → String)
    (styleInstr langInstr text : String) : Except String Json :=
  if (chunkText text).length = 1 then
    pyParseJson (llm (synthesisSystem styleInstr langInstr)
      ("Transcript:\n\n" ++ text))
  else do
    let analyses ← mapAnalyses llm (chunkText text).length (chunkText text).enum
    let analysesText := joinSep "\n\n" (analyses.enum.map (fun p =>
      "=== Section " ++ toString (sectionIndex p.2 p.1 + 1) ++ " ===\n"
        ++ jsonDumps p.2))
    pyParseJson (llm (synthesisSystem styleInstr langInstr)
      ("Section analyses:\n\n" ++ analysesText))

/-- Embedding of `generate_summary` (summarize.py lines 160–238). -/
def generateSummary (llm : String → String → String) (text : String)
    (style : String) (language : String) (segments : Option (List Seg))
    (detectedLanguage : String) : Except String Json := do
  let summary0 ← summaryCore llm (styleInstruction style)
    (languageInstruction language detectedLanguage) text
  let summary1 ← ensureRequired summary0
  pure (applyTimestamps llm (languageInstruction language detectedLanguage)
    segments summary1)

/-- A concrete transcription chunk response (witness data). -/
def chunkA : ChunkResp :=
  { text := "hello there", segments := [⟨0, 1, "hello"⟩, ⟨1, 2, "there"⟩],
    language := "en", duration := 2 }

/-- A second concrete chunk response with a falsy language (witness
data). -/
def chunkB : ChunkResp :=
  { text := "world", segments := [⟨0, 2, "world"⟩],
    language := "", duration := 2 }

/-! ### Concrete rows used by witnesses -/

/-- A job row in status `error`, as produced by a failed attempt. -/
def jobErrY : JobRecord :=
  { initialJob "j9" "youtube" 0 with
    status := "error", progress := 55,
    error := some (jobErrorPayload "boom" "tb") }

/-- A running job row. -/
def jobRunning : JobRecord := { initialJob "j2" "youtube" 0 with status := "running" }

/-- A row in `cancel_requested` whose attempt has already persisted a
transcript. -/
def jobCancelReq : JobRecord :=
  { initialJob "j3" "youtube" 0 with
    status := "cancel_requested",
    transcript := some (.obj [("text", .str "t"), ("segments", .arr []),
                              ("language", .str "en"), ("source", .str "asr")]) }

theorem step_preserves_invariant {j j2 : JobRecord}
    (hj : jobInvariant j) (hs : Step j j2) : jobInvariant j2 := by
  obtain ⟨i1, i2, i3, i4⟩ := hj
  cases hs with
  | start hq =>
    have he : j.error = none := i4 (Or.inl hq)
    refine ⟨?_, ?_, ?_, ?_⟩ <;> simp [startAttempt, he]
  | progress p ha =>
    refine ⟨fun h => i1 h, fun h => i2 h, fun h => i3 h, fun _ => ?_⟩
    cases ha with
    | inl h => exact i4 (Or.inr (Or.inl h))
    | inr h => exact i4 (Or.inr (Or.inr h))
  | transcript t ha =>
    have he : j.error = none := by
      cases ha with
      | inl h => exact i4 (Or.inr (Or.inl h))
      | inr h => exact i4 (Or.inr (Or.inr h))
    have hnd : j.status ≠ "done" := by
      cases ha with
      | inl h => rw [h]; decide
      | inr h => rw [h]; decide
    have hne : j.status ≠ "error" := by
      intro h
      have h2 := i1 h
      rw [he] at h2
      simp at h2
    refine ⟨fun h => absurd h hne, fun h => ?_, fun h => absurd h hnd, fun _ => he⟩
    have h2 : j.error.isSome = true := h
    rw [he] at h2
    simp at h2
  | complete s ha ht =>
    have he : j.error = none := by
      cases ha with
      | inl h => exact i4 (Or.inr (Or.inl h))
      | inr h => exact i4 (Or.inr (Or.inr h))
    refine ⟨?_, ?_, ?_, ?_⟩ <;> simp [completeAttempt, he, ht]
  | fail excMsg tb hg =>
    refine ⟨?_, ?_, ?_, ?_⟩ <;> simp [failAttempt]
  | retry j2 task h =>
    unfold retryJob at h
    split at h
    · exact absurd h (by simp)
    · split at h
      · injection h with h2
        have hj2 : j2 = { j with status := "queued", progress := 0, error := none } :=
          (congrArg Prod.fst h2).symm
        subst hj2
        refine ⟨?_, ?_, ?_, ?_⟩ <;> simp
      · exact absurd h (by simp)
  | cancel j2 h =>
    unfold cancelJob at h
    split at h
    · exact absurd h (by simp)
    · split at h
      case isTrue hrun =>
        injection h with h2
        subst h2
        have he : j.error = none := i4 (Or.inr (Or.inl hrun))
        refine ⟨?_, ?_, ?_, ?_⟩ <;> simp [he]
      case isFalse =>
        injection h with h2
        subst h2
        refine ⟨?_, ?_, ?_, ?_⟩ <;> simp [cancelledPayload]

/-! ### Theorems for claim C1 (job store invariant) -/

/-- C1 (counterexample): cancelling a freshly created (queued) job
succeeds and leaves `status = "cancelled"` with a non-null `error`
payload, so `error ≠ null` does not imply `status = error`. -/
theorem cancel_queued_breaks_error_iff :
    (cancelJob (initialJob "j1" "youtube" 0)).map (fun j => j.status) =
      .ok "cancelled" ∧
    (cancelJob (initialJob "j1" "youtube" 0)).map (fun j => j.error.isSome) =
      .ok true ∧
    "cancelled" ≠ "error" := ⟨rfl, rfl, by decide⟩

/-- C1 (amended): on every reachable job row, `status = error` implies a
non-null `error`, a non-null `error` implies `status ∈ {error,
cancelled}` (cancellation of a queued job records a `cancelled` error
payload), and `status = done` implies non-null `transcript` and
`summary`; this is preserved by every mutating operation (attempt
completion, error path, retry, and cancellation of a queued or running
job). -/
theorem reachable_jobInvariant (j : JobRecord) (h : Reach j) : jobInvariant j := by
  induction h with
  | init id source_type created_at =>
    refine ⟨?_, ?_, ?_, ?_⟩ <;> simp [initialJob]
  | step _ hs ih => exact step_preserves_invariant ih hs

/-- C1 (witness): the invariant holds on a concrete reachable row — a
queued job that was cancelled. -/
theorem reachable_jobInvariant_witness :
    jobInvariant { initialJob "j1" "youtube" 0 with
                   status := "cancelled", progress := 0,
                   error := some cancelledPayload } :=
  reachable_jobInvariant _
    (Reach.step (Reach.init "j1" "youtube" 0)
      (Step.cancel _ _ rfl))

/-! ### Theorems for claim C9 (retention sweep) -/

/-- C9: one sweep invocation only deletes jobs strictly older than the
retention window, only deletes jobs in the terminal statuses `done` or
`error`, and deletes at most the configured batch size. -/
theorem retention_sweep_safe (gotLock : Bool) (nowSec retentionHours : ℤ)
    (batchSize : ℕ) (jobs : List JobRecord) :
    (∀ j ∈ retentionSweepDeleted gotLock nowSec retentionHours batchSize jobs,
        retentionHours * 3600 < nowSec - j.created_at ∧
        (j.status = "done" ∨ j.status = "error")) ∧
    (retentionSweepDeleted gotLock nowSec retentionHours batchSize jobs).length ≤
      batchSize := by
  cases gotLock with
  | false => simp [retentionSweepDeleted]
  | true =>
    constructor
    · intro j hj
      simp only [retentionSweepDeleted, if_true] at hj
      have hj2 := List.mem_of_mem_take hj
      have hcond := (List.mem_filter.mp hj2).2
      simp only [Bool.and_eq_true, Bool.or_eq_true, decide_eq_true_eq] at hcond
      exact ⟨by omega, hcond.2⟩
    · simp only [retentionSweepDeleted, if_true]
      exact List.length_take_le _ _

/-- C9 (witness): a concrete sweep over one stale and one fresh `done`
job. -/
theorem retention_sweep_safe_witness :
    ((1 : ℤ) * 3600 < 1000000 - jobOldDone.created_at ∧
      (jobOldDone.status = "done" ∨ jobOldDone.status = "error")) ∧
    (retentionSweepDeleted true 1000000 1 5 [jobOldDone, jobYoungDone]).length ≤ 5 :=
  ⟨(retention_sweep_safe true 1000000 1 5 [jobOldDone, jobYoungDone]).1 jobOldDone
      (List.mem_singleton_self jobOldDone),
   (retention_sweep_safe true 1000000 1 5 [jobOldDone, jobYoungDone]).2⟩

/-! ### Rounding lemmas -/

theorem le_roundHalfEven (q : ℚ) : ⌊q⌋ ≤ roundHalfEven q := by
  unfold roundHalfEven
  split_ifs <;> omega

theorem roundHalfEven_le (q : ℚ) : roundHalfEven q ≤ ⌊q⌋ + 1 := by
  unfold roundHalfEven
  split_ifs <;> omega

theorem roundHalfEven_mono {a b : ℚ} (h : a ≤ b) :
    roundHalfEven a ≤ roundHalfEven b := by
  rcases lt_or_eq_of_le (Int.floor_le_floor h) with hlt | heq
  · calc roundHalfEven a ≤ ⌊a⌋ + 1 := roundHalfEven_le a
      _ ≤ ⌊b⌋ := by omega
      _ ≤ roundHalfEven b := le_roundHalfEven b
  · unfold roundHalfEven
    rw [← heq]
    split_ifs <;> first | omega | (exfalso; linarith)

theorem round2_mono {a b : ℚ} (h : a ≤ b) : round2 a ≤ round2 b := by
  unfold round2
  have h2 : roundHalfEven (100 * a) ≤ roundHalfEven (100 * b) :=
    roundHalfEven_mono (by linarith)
  have h3 : ((roundHalfEven (100 * a) : ℤ) : ℚ) ≤ ((roundHalfEven (100 * b) : ℤ) : ℚ) :=
    Int.cast_le.mpr h2
  linarith

/-! ### Whitespace-equivalence lemmas -/

theorem nonWsChars_append (a b : String) :
    nonWsChars (a ++ b) = nonWsChars a ++ nonWsChars b := by
  simp [nonWsChars, List.filter_append]

theorem nonWsChars_joinSep (sep : String) (hsep : nonWsChars sep = [])
    (l : List String) :
    nonWsChars (joinSep sep l) = (l.map nonWsChars).flatten := by
  induction l with
  | nil => rfl
  | cons s rest ih =>
    cases rest with
    | nil => simp [joinSep]
    | cons t r =>
      rw [show joinSep sep (s :: t :: r) = s ++ sep ++ joinSep sep (t :: r) from rfl]
      simp [nonWsChars_append, hsep, ih]

theorem filter_dropWhile_ws (l : List Char) :
    (l.dropWhile isPyWs).filter (fun c => !isPyWs c) =
      l.filter (fun c => !isPyWs c) := by
  induction l with
  | nil => rfl
  | cons c t ih =>
    by_cases hc : isPyWs c
    · simp [List.dropWhile_cons, List.filter_cons, hc, ih]
    · simp [List.dropWhile_cons, List.filter_cons, hc]

theorem nonWsChars_pyStrip (s : String) : nonWsChars (pyStrip s) = nonWsChars s := by
  show List.filter _ (((s.data.dropWhile isPyWs).reverse.dropWhile isPyWs).reverse) = _
  rw [List.filter_reverse, filter_dropWhile_ws, List.filter_reverse,
    List.reverse_reverse, filter_dropWhile_ws]
  rfl

/-! ### Transcription merge lemmas -/

theorem mergeLoop_texts (chunks : List ChunkResp) (off : ℚ) (lang : String) :
    (mergeLoop chunks off lang).1 = chunks.map ChunkResp.text := by
  induction chunks generalizing off lang with
  | nil => rfl
  | cons c rest ih => simp [mergeLoop, ih]

theorem mergeLoop_segments_sorted (chunks : List ChunkResp) (off : ℚ) (lang : String)
    (hmono : ∀ c ∈ chunks, (c.segments.map Seg.start).Sorted (· ≤ ·))
    (hb : ∀ c ∈ chunks, ∀ s ∈ c.segments, 0 ≤ s.start ∧ s.start ≤ c.duration)
    (hd : ∀ c ∈ chunks, 0 ≤ c.duration) :
    ((mergeLoop chunks off lang).2.1.map Seg.start).Sorted (· ≤ ·) ∧
    ∀ x ∈ (mergeLoop chunks off lang).2.1.map Seg.start, round2 off ≤ x := by
  induction chunks generalizing off lang with
  | nil => simp [mergeLoop]
  | cons c rest ih =>
    have hmc := hmono c (List.mem_cons_self c rest)
    have hbc := hb c (List.mem_cons_self c rest)
    have hdc := hd c (List.mem_cons_self c rest)
    obtain ⟨ihs, ihlb⟩ :=
      ih (off + c.duration) (if c.language = "" then lang else c.language)
        (fun c2 h2 => hmono c2 (List.mem_cons_of_mem _ h2))
        (fun c2 h2 => hb c2 (List.mem_cons_of_mem _ h2))
        (fun c2 h2 => hd c2 (List.mem_cons_of_mem _ h2))
    have hpart1 :
        (c.segments.map (fun s => round2 (s.start + off))).Sorted (· ≤ ·) := by
      have h2 :
          ((c.segments.map Seg.start).map (fun x => round2 (x + off))).Sorted (· ≤ ·) := by
        refine List.Pairwise.map _ (fun a b hab => ?_) hmc
        exact round2_mono (by linarith)
      simpa [List.map_map, Function.comp] using h2
    constructor
    · simp only [mergeLoop, List.map_append, List.map_map]
      apply List.pairwise_append.mpr
      refine ⟨?_, ihs, ?_⟩
      · simpa [Function.comp] using hpart1
      · intro a ha b hb2
        simp only [List.mem_map, Function.comp] at ha
        obtain ⟨s, hs, rfl⟩ := ha
        have h1 : round2 (s.start + off) ≤ round2 (off + c.duration) :=
          round2_mono (by have := (hbc s hs).2; linarith)
        exact le_trans h1 (ihlb b hb2)
    · intro x hx
      simp only [mergeLoop, List.map_append, List.map_map] at hx
      rcases List.mem_append.mp hx with h1 | h1
      · simp only [List.mem_map, Function.comp] at h1
        obtain ⟨s, hs, rfl⟩ := h1
        exact round2_mono (by have := (hbc s hs).1; linarith)
      · exact le_trans (round2_mono (by linarith)) (ihlb x h1)

/-! ### Theorems for claim C6 (chunk-and-reassemble round trip) -/

/-- C6: if every chunk's response has non-negative, chunk-duration-bounded
and non-decreasing segment starts and every chunk duration is
non-negative, then the reassembled transcript's segment starts are
non-decreasing and its text equals the concatenation of the per-chunk
transcriptions up to whitespace. -/
theorem transcribe_reassembly (chunks : List ChunkResp)
    (hmono : ∀ c ∈ chunks, (c.segments.map Seg.start).Sorted (· ≤ ·))
    (hb : ∀ c ∈ chunks, ∀ s ∈ c.segments, 0 ≤ s.start ∧ s.start ≤ c.duration)
    (hd : ∀ c ∈ chunks, 0 ≤ c.duration) :
    ((transcribeMerge chunks).segments.map Seg.start).Sorted (· ≤ ·) ∧
    eqUpToWs (transcribeMerge chunks).text (strConcat (chunks.map ChunkResp.text)) := by
  constructor
  · exact (mergeLoop_segments_sorted chunks 0 "unknown" hmono hb hd).1
  · show nonWsChars (pyStrip (joinSep " " (mergeLoop chunks 0 "unknown").1)) = _
    rw [nonWsChars_pyStrip, mergeLoop_texts,
      nonWsChars_joinSep " " rfl, strConcat, nonWsChars_joinSep "" rfl]

/-- C6 (witness): a concrete two-chunk reassembly. -/
theorem transcribe_reassembly_witness :
    ((transcribeMerge [chunkA, chunkB]).segments.map Seg.start).Sorted (· ≤ ·) ∧
    eqUpToWs (transcribeMerge [chunkA, chunkB]).text
      (strConcat ([chunkA, chunkB].map ChunkResp.text)) :=
  transcribe_reassembly [chunkA, chunkB] (by decide) (by decide) (by decide)

/-! ### Sentence splitter and chunking lemmas -/

theorem isPyWs_of_sentEnd {c : Char} (h : isSentEnd c = true) : isPyWs c = false := by
  simp only [isSentEnd, decide_eq_true_eq] at h
  rcases h with rfl | rfl | rfl <;> rfl

theorem splitAux_filter (fuel : ℕ) (l acc : List Char) :
    ((splitSentencesAux fuel l acc).map
        (fun cs => cs.filter (fun c => !isPyWs c))).flatten =
      acc.reverse.filter (fun c => !isPyWs c) ++ l.filter (fun c => !isPyWs c) := by
  induction fuel generalizing l acc with
  | zero =>
    cases l with
    | nil => simp [splitSentencesAux]
    | cons c rest => simp [splitSentencesAux, List.filter_append]
  | succ fuel ih =>
    cases l with
    | nil => simp [splitSentencesAux]
    | cons c rest =>
      by_cases h : (isSentEnd c && headIsWs rest) = true
      · have hnws : isPyWs c = false := isPyWs_of_sentEnd (Bool.and_elim_left h)
        simp only [splitSentencesAux, h, if_true, List.map_cons, List.flatten_cons, ih,
          List.filter_append, List.reverse_nil, List.filter_nil, List.nil_append,
          filter_dropWhile_ws, List.filter_cons, hnws]
        simp [List.append_assoc]
      · rw [show splitSentencesAux (fuel + 1) (c :: rest) acc =
              splitSentencesAux fuel rest (c :: acc) from by
            simp [splitSentencesAux, h]]
        rw [ih]
        by_cases hc : isPyWs c
        · simp [List.reverse_cons, List.filter_append, List.filter_cons, hc,
            List.append_assoc]
        · simp [List.reverse_cons, List.filter_append, List.filter_cons, hc,
            List.append_assoc]

theorem pySplitSentences_nonWs (text : String) :
    ((pySplitSentences text).map nonWsChars).flatten = nonWsChars text := by
  unfold pySplitSentences
  rw [List.map_map]
  have hfun : (nonWsChars ∘ fun cs => String.mk cs) =
      fun cs => cs.filter (fun c => !isPyWs c) := rfl
  rw [hfun]
  simpa using splitAux_filter text.data.length text.data []

theorem chunkLoop_eq (m : ℕ) (ss : List String) :
    ∀ cur len, chunkLoop m ss cur len = (chunkGroups m ss cur len).map (joinSep " ") := by
  induction ss with
  | nil =>
    intro cur len
    by_cases h : cur = [] <;> simp [chunkLoop, chunkGroups, h]
  | cons s rest ih =>
    intro cur len
    by_cases h : m < len + s.length ∧ cur ≠ [] <;>
      simp [chunkLoop, chunkGroups, h, ih]

theorem chunkGroups_join (m : ℕ) (ss : List String) :
    ∀ cur len, (chunkGroups m ss cur len).flatten = cur ++ ss := by
  induction ss with
  | nil =>
    intro cur len
    by_cases h : cur = [] <;> simp [chunkGroups, h]
  | cons s rest ih =>
    intro cur len
    by_cases h : m < len + s.length ∧ cur ≠ [] <;>
      simp [chunkGroups, h, ih]

theorem chunkGroups_ne_nil (m : ℕ) (ss : List String) :
    ∀ cur len, cur ≠ [] → ∀ g ∈ chunkGroups m ss cur len, g ≠ [] := by
  induction ss with
  | nil =>
    intro cur len hcur g hg
    simp [chunkGroups, hcur] at hg
    simpa [hg] using hcur
  | cons s rest ih =>
    intro cur len hcur g hg
    by_cases h : m < len + s.length ∧ cur ≠ []
    · simp only [chunkGroups, if_pos h, List.mem_cons] at hg
      rcases hg with rfl | hg
      · exact hcur
      · exact ih [s] s.length (by simp) g hg
    · simp only [chunkGroups, if_neg h] at hg
      exact ih (cur ++ [s]) (len + s.length) (by simp) g hg

theorem chunkGroups_nil_start_ne_nil (m : ℕ) (ss : List String) :
    ∀ g ∈ chunkGroups m ss [] 0, g ≠ [] := by
  cases ss with
  | nil => simp [chunkGroups]
  | cons s rest =>
    intro g hg
    rw [show chunkGroups m (s :: rest) [] 0 =
          chunkGroups m rest [s] s.length from by simp [chunkGroups]] at hg
    exact chunkGroups_ne_nil m rest [s] s.length (by simp) g hg

theorem chunkGroups_budget (m : ℕ) (ss : List String) :
    ∀ cur len, len = sumLens cur → (2 ≤ cur.length → len ≤ m) →
      ∀ g ∈ chunkGroups m ss cur len, g.length = 1 ∨ sumLens g ≤ m := by
  induction ss with
  | nil =>
    intro cur len hlen hbud g hg
    by_cases hc : cur = []
    · simp [chunkGroups, hc] at hg
    · simp only [chunkGroups, if_neg hc, List.mem_singleton] at hg
      subst hg
      rcases Nat.lt_or_ge g.length 2 with h2 | h2
      · left
        have h0 : g.length ≠ 0 := by simpa using hc
        omega
      · right
        rw [← hlen]
        exact hbud h2
  | cons s rest ih =>
    intro cur len hlen hbud g hg
    by_cases h : m < len + s.length ∧ cur ≠ []
    · simp only [chunkGroups, if_pos h, List.mem_cons] at hg
      rcases hg with rfl | hg
      · rcases Nat.lt_or_ge g.length 2 with h2 | h2
        · left
          have h0 : g.length ≠ 0 := by simpa using h.2
          omega
        · right
          rw [← hlen]
          exact hbud h2
      · exact ih [s] s.length (by simp [sumLens]) (by intro h2; simp at h2) g hg
    · simp only [chunkGroups, if_neg h] at hg
      refine ih (cur ++ [s]) (len + s.length) ?_ ?_ g hg
      · simp [sumLens, hlen]
      · intro h2
        by_cases hc : cur = []
        · subst hc; simp at h2
        · have hA : ¬ m < len + s.length := fun hA => h ⟨hA, hc⟩
          omega

theorem join_map_nonWs_join (L : List (List String)) :
    (L.map (fun g => (g.map nonWsChars).flatten)).flatten =
      ((L.flatten).map nonWsChars).flatten := by
  induction L with
  | nil => rfl
  | cons g rest ih => simp [List.map_append, List.flatten_append, ih]

/-! ### Theorems for claim C8 (text chunking) -/

/-- C8 (counterexample): with chunk budget `max_tokens = 1`
(`max_chars = 4`), the text `"abc. d"` has estimated token count
`6 // 4 = 1`, which fits the budget, yet `_chunk_text` returns two
chunks — the code compares the character count (`6 > 4`), not the
token estimate. -/
theorem chunk_text_fits_counterexample :
    estimateTokens "abc. d" ≤ 1 ∧
    chunkText "abc. d" 1 = ["abc.", "d"] ∧
    chunkText "abc. d" 1 ≠ ["abc. d"] :=
  ⟨by decide, by decide, by decide⟩

/-- C8 (amended): if the text's character count is within
`max_tokens * CHARS_PER_TOKEN` the chunker returns exactly one chunk
equal to the text (the code tests characters, which can disagree with
the token estimate by up to `CHARS_PER_TOKEN - 1` characters);
otherwise every chunk is the space-join of a non-empty group of
consecutive sentences — never splitting a sentence — whose groups
concatenate to the full sentence list, and each group is a single
sentence or has total sentence length within the character budget; in
all cases the concatenation of the chunks equals the original text up
to whitespace. -/
theorem chunk_text_amended (text : String) (maxTokens : ℕ) :
    (text.length ≤ maxTokens * CHARS_PER_TOKEN → chunkText text maxTokens = [text]) ∧
    (maxTokens * CHARS_PER_TOKEN < text.length →
      (chunkGroups (maxTokens * CHARS_PER_TOKEN) (pySplitSentences text) [] 0).flatten =
          pySplitSentences text ∧
      (∀ g ∈ chunkGroups (maxTokens * CHARS_PER_TOKEN) (pySplitSentences text) [] 0,
        g ≠ []) ∧
      chunkText text maxTokens =
        (chunkGroups (maxTokens * CHARS_PER_TOKEN) (pySplitSentences text) [] 0).map
          (joinSep " ") ∧
      (∀ g ∈ chunkGroups (maxTokens * CHARS_PER_TOKEN) (pySplitSentences text) [] 0,
        g.length = 1 ∨ sumLens g ≤ maxTokens * CHARS_PER_TOKEN)) ∧
    eqUpToWs (strConcat (chunkText text maxTokens)) text := by
  refine ⟨?_, ?_, ?_⟩
  · intro h
    unfold chunkText
    rw [if_pos h]
  · intro h
    refine ⟨by simpa using chunkGroups_join _ _ [] 0,
      chunkGroups_nil_start_ne_nil _ _, ?_,
      chunkGroups_budget _ _ [] 0 rfl (by intro h2; simp at h2)⟩
    unfold chunkText
    rw [if_neg (not_le.mpr h)]
    exact chunkLoop_eq _ _ [] 0
  · show nonWsChars (strConcat (chunkText text maxTokens)) = nonWsChars text
    by_cases h : text.length ≤ maxTokens * CHARS_PER_TOKEN
    · unfold chunkText
      rw [if_pos h]
      rfl
    · unfold chunkText
      rw [if_neg h, chunkLoop_eq _ _ [] 0, strConcat, nonWsChars_joinSep "" rfl,
        List.map_map]
      rw [show nonWsChars ∘ joinSep " " = fun g => (g.map nonWsChars).flatten from
        funext fun g => nonWsChars_joinSep " " rfl g]
      rw [join_map_nonWs_join, chunkGroups_join]
      simpa using pySplitSentences_nonWs text

/-- C8 (witness): the amended chunking contract at concrete inputs —
a short text (single chunk) and an overlong text (two sentence
groups). -/
theorem chunk_text_amended_witness :
    chunkText "hi" 1 = ["hi"] ∧
    chunkText "abc. d" 1 =
      (chunkGroups (1 * CHARS_PER_TOKEN) (pySplitSentences "abc. d") [] 0).map
        (joinSep " ") ∧
    eqUpToWs (strConcat (chunkText "abc. d" 1)) "abc. d" :=
  ⟨(chunk_text_amended "hi" 1).1 (by decide),
   ((chunk_text_amended "abc. d" 1).2.1 (by decide)).2.2.1,
   (chunk_text_amended "abc. d" 1).2.2⟩

/-! ### List-slicing lemmas for segment estimation -/

theorem listChunksAux_join (step : ℕ) :
    ∀ fuel l, l.length ≤ fuel → (listChunksAux step fuel l).flatten = l := by
  intro fuel
  induction fuel with
  | zero =>
    intro l hl
    cases l with
    | nil => rfl
    | cons x xs => simp at hl
  | succ fuel ih =>
    intro l hl
    cases l with
    | nil => rfl
    | cons x xs =>
      simp only [listChunksAux, List.flatten_cons]
      rw [ih (xs.drop (step - 1)) (by simp only [List.length_drop]; simp at hl; omega)]
      simp [List.take_append_drop]

theorem listChunksAux_length_le (step : ℕ) :
    ∀ k fuel l, l.length ≤ step * k → (listChunksAux step fuel l).length ≤ k := by
  intro k
  induction k with
  | zero =>
    intro fuel l hl
    have h0 : l = [] := List.length_eq_zero.mp (by omega)
    subst h0
    cases fuel <;> simp [listChunksAux]
  | succ k ih =>
    intro fuel l hl
    cases l with
    | nil => cases fuel <;> simp [listChunksAux]
    | cons x xs =>
      cases fuel with
      | zero => simp [listChunksAux]
      | succ fuel =>
        simp only [listChunksAux, List.length_cons]
        have hmul : step * (k + 1) = step * k + step := by ring
        rw [hmul] at hl
        have hdrop : (xs.drop (step - 1)).length ≤ step * k := by
          simp only [List.length_drop]
          simp only [List.length_cons] at hl
          omega
        exact Nat.succ_le_succ (ih fuel _ hdrop)

theorem listChunks_join (step : ℕ) (l : List String) :
    (listChunks step l).flatten = l :=
  listChunksAux_join step l.length l le_rfl

theorem listChunks_length_le (step k : ℕ) (l : List String)
    (h : l.length ≤ step * k) : (listChunks step l).length ≤ k :=
  listChunksAux_length_le step k l.length l h

theorem listChunks_ne_nil (step : ℕ) (l : List String) (h : l ≠ []) :
    listChunks step l ≠ [] := by
  cases l with
  | nil => exact absurd rfl h
  | cons x xs => simp [listChunks, listChunksAux]

theorem segmentCountFor_le_40 (n : ℕ) : segmentCountFor n ≤ 40 := by
  unfold segmentCountFor
  omega

theorem sentences_le_step_mul (n : ℕ) : n ≤ stepFor n * segmentCountFor n := by
  have hsc1 : 1 ≤ segmentCountFor n := le_max_left 1 _
  have hmod := Nat.div_add_mod (n + segmentCountFor n - 1) (segmentCountFor n)
  have hmodlt : (n + segmentCountFor n - 1) % segmentCountFor n < segmentCountFor n :=
    Nat.mod_lt _ (by omega)
  have hnq : n ≤ (n + segmentCountFor n - 1) / segmentCountFor n * segmentCountFor n := by
    have hcomm : segmentCountFor n * ((n + segmentCountFor n - 1) / segmentCountFor n) =
        (n + segmentCountFor n - 1) / segmentCountFor n * segmentCountFor n :=
      Nat.mul_comm _ _
    omega
  have hstep : (n + segmentCountFor n - 1) / segmentCountFor n ≤ stepFor n :=
    le_max_right 1 _
  exact le_trans hnq (Nat.mul_le_mul_right _ hstep)

/-! ### Theorems for claim C10 (segment estimation fallback) -/

/-- C10 (counterexample): the whitespace-only text `" "` is non-empty
and the duration `5` is positive, yet `_estimate_segments_from_text`
returns the empty list (no sentences survive stripping), not between 1
and 40 segments. -/
theorem estimate_segments_whitespace_counterexample :
    " " ≠ "" ∧ (0 : ℚ) < 5 ∧ estimateSegments " " 5 = [] :=
  ⟨by decide, by decide, by decide⟩

/-- C10 (amended): the estimator returns `[]` when the text is empty or
the duration is non-positive, and also when no sentence survives
splitting and stripping (e.g. whitespace-only text); otherwise it
returns between 1 and 40 segments whose starts are
`round2(duration*i/total)` — hence non-decreasing and evenly spaced —
whose ends are `round2(duration*(i+1)/total)` and bound their starts,
whose last end is the duration rounded to two decimals (not the exact
duration), and whose texts are the space-joins of consecutive sentence
groups that concatenate to the full sentence list (every sentence
exactly once, in order). -/
theorem estimate_segments_amended (text : String) (d : ℚ) :
    (text = "" ∨ d ≤ 0 → estimateSegments text d = []) ∧
    (sentencesOf text = [] → estimateSegments text d = []) ∧
    (0 < d → sentencesOf text ≠ [] →
      1 ≤ (estimateSegments text d).length ∧
      (estimateSegments text d).length ≤ 40 ∧
      (estimateSegments text d).map Seg.start =
        (List.range (estimateSegments text d).length).map
          (fun i : ℕ => round2 (d * (i : ℚ) / ((estimateSegments text d).length : ℚ))) ∧
      (estimateSegments text d).map Seg.end_ =
        (List.range (estimateSegments text d).length).map
          (fun i : ℕ => round2 (d * ((i : ℚ) + 1) / ((estimateSegments text d).length : ℚ))) ∧
      ((estimateSegments text d).map Seg.start).Sorted (· ≤ ·) ∧
      (∀ s ∈ estimateSegments text d, s.start ≤ s.end_) ∧
      (∀ hne : estimateSegments text d ≠ [],
        ((estimateSegments text d).getLast hne).end_ = round2 d) ∧
      (estimateSegments text d).map Seg.text =
        (listChunks (stepFor (sentencesOf text).length) (sentencesOf text)).map
          (joinSep " ") ∧
      (listChunks (stepFor (sentencesOf text).length) (sentencesOf text)).flatten =
        sentencesOf text) := by
  refine ⟨?_, ?_, ?_⟩
  · intro h
    simp only [estimateSegments, if_pos h]
  · intro h
    by_cases h1 : text = "" ∨ d ≤ 0
    · simp only [estimateSegments, if_pos h1]
    · simp only [estimateSegments, if_neg h1, if_pos h]
  · intro hd0 hsent
    have htext : text ≠ "" := fun he => hsent (by rw [he]; decide)
    have hcond1 : ¬(text = "" ∨ d ≤ 0) := by
      push_neg
      exact ⟨htext, hd0⟩
    have hne := listChunks_ne_nil (stepFor (sentencesOf text).length) (sentencesOf text) hsent
    have hT0 : 0 <
        (listChunks (stepFor (sentencesOf text).length) (sentencesOf text)).length :=
      List.length_pos.mpr hne
    have hred : estimateSegments text d =
        (listChunks (stepFor (sentencesOf text).length) (sentencesOf text)).enum.map
          (fun p =>
            { start := round2 (d * p.1 /
                (listChunks (stepFor (sentencesOf text).length) (sentencesOf text)).length),
              end_ := round2 (d * (p.1 + 1) /
                (listChunks (stepFor (sentencesOf text).length) (sentencesOf text)).length),
              text := joinSep " " p.2 : Seg }) := by
      simp only [estimateSegments, if_neg hcond1, if_neg hsent, if_neg (by omega :
        ¬ (listChunks (stepFor (sentencesOf text).length) (sentencesOf text)).length = 0)]
    have hlen : (estimateSegments text d).length =
        (listChunks (stepFor (sentencesOf text).length) (sentencesOf text)).length := by
      rw [hred]
      simp
    have hstarts : (estimateSegments text d).map Seg.start =
        (List.range (estimateSegments text d).length).map
          (fun i : ℕ => round2 (d * (i : ℚ) / ((estimateSegments text d).length : ℚ))) := by
      rw [hred]
      simp only [List.map_map, List.length_map, List.enum_length]
      rw [show (Seg.start ∘ fun p : ℕ × List String =>
            ({ start := round2 (d * p.1 /
                (listChunks (stepFor (sentencesOf text).length) (sentencesOf text)).length),
               end_ := round2 (d * (p.1 + 1) /
                (listChunks (stepFor (sentencesOf text).length) (sentencesOf text)).length),
               text := joinSep " " p.2 : Seg })) =
          (fun i : ℕ => round2 (d * i /
            (listChunks (stepFor (sentencesOf text).length) (sentencesOf text)).length)) ∘
            Prod.fst from rfl]
      rw [← List.map_map, List.enum_map_fst]
    have hends : (estimateSegments text d).map Seg.end_ =
        (List.range (estimateSegments text d).length).map
          (fun i : ℕ => round2 (d * ((i : ℚ) + 1) / ((estimateSegments text d).length : ℚ))) := by
      rw [hred]
      simp only [List.map_map, List.length_map, List.enum_length]
      rw [show (Seg.end_ ∘ fun p : ℕ × List String =>
            ({ start := round2 (d * p.1 /
                (listChunks (stepFor (sentencesOf text).length) (sentencesOf text)).length),
               end_ := round2 (d * (p.1 + 1) /
                (listChunks (stepFor (sentencesOf text).length) (sentencesOf text)).length),
               text := joinSep " " p.2 : Seg })) =
          (fun i : ℕ => round2 (d * (i + 1) /
            (listChunks (stepFor (sentencesOf text).length) (sentencesOf text)).length)) ∘
            Prod.fst from rfl]
      rw [← List.map_map, List.enum_map_fst]
    have hTpos : (0 : ℚ) <
        ((listChunks (stepFor (sentencesOf text).length) (sentencesOf text)).length : ℚ) := by
      exact_mod_cast hT0
    have hTpos2 : (0 : ℚ) < ((estimateSegments text d).length : ℚ) := by
      rw [hlen]
      exact_mod_cast hT0
    refine ⟨by omega, ?_, hstarts, hends, ?_, ?_, ?_, ?_, ?_⟩
    · rw [hlen]
      exact le_trans
        (listChunks_length_le _ _ _ (sentences_le_step_mul (sentencesOf text).length))
        (segmentCountFor_le_40 (sentencesOf text).length)
    · rw [hstarts]
      refine List.Pairwise.map _ (fun a b hab => ?_) (List.pairwise_lt_range _)
      exact round2_mono ((div_le_div_right hTpos2).mpr
        (mul_le_mul_of_nonneg_left (by exact_mod_cast hab.le) hd0.le))
    · intro s hs
      rw [hred] at hs
      obtain ⟨p, hp, rfl⟩ := List.mem_map.mp hs
      refine round2_mono ((div_le_div_right hTpos).mpr
        (mul_le_mul_of_nonneg_left ?_ hd0.le))
      linarith
    · intro hne2
      have hopt : ∀ i, i < (estimateSegments text d).length →
          ((estimateSegments text d)[i]?).map Seg.end_ =
            some (round2 (d * (i + 1) / ((estimateSegments text d).length : ℚ))) := by
        intro i hi
        rw [← List.getElem?_map, hends, List.getElem?_map,
          List.getElem?_range (by simpa using hi)]
        rfl
      have hlpos : 0 < (estimateSegments text d).length := List.length_pos.mpr hne2
      have hi : (estimateSegments text d).length - 1 < (estimateSegments text d).length := by
        omega
      have h4 := hopt _ hi
      rw [List.getElem?_eq_getElem hi] at h4
      simp only [Option.map_some'] at h4
      rw [Option.some_inj] at h4
      rw [List.getLast_eq_getElem, h4]
      have hc : (((estimateSegments text d).length - 1 : ℕ) : ℚ) =
          ((estimateSegments text d).length : ℚ) - 1 := by
        rw [Nat.cast_sub hlpos]
        simp
      rw [hc, show (((estimateSegments text d).length : ℚ) - 1 + 1) =
        ((estimateSegments text d).length : ℚ) by ring]
      congr 1
      exact mul_div_cancel_right₀ d (ne_of_gt hTpos2)
    · rw [hred]
      simp only [List.map_map]
      rw [show ((Seg.text ∘ fun p : ℕ × List String =>
            ({ start := round2 (d * p.1 /
                (listChunks (stepFor (sentencesOf text).length) (sentencesOf text)).length),
               end_ := round2 (d * (p.1 + 1) /
                (listChunks (stepFor (sentencesOf text).length) (sentencesOf text)).length),
               text := joinSep " " p.2 : Seg })) =
          joinSep " " ∘ Prod.snd) from rfl]
      rw [← List.map_map, List.enum_map_snd]
    · exact listChunks_join _ _

/-- C10 (witness): the amended estimator contract at the concrete text
`"One. Two."` with duration 10. -/
theorem estimate_segments_amended_witness :
    1 ≤ (estimateSegments "One. Two." 10).length ∧
    (estimateSegments "One. Two." 10).length ≤ 40 ∧
    (estimateSegments "One. Two." 10).map Seg.start =
      (List.range (estimateSegments "One. Two." 10).length).map
        (fun i : ℕ => round2 ((10 : ℚ) * (i : ℚ) /
          ((estimateSegments "One. Two." 10).length : ℚ))) ∧
    (listChunks (stepFor (sentencesOf "One. Two.").length)
        (sentencesOf "One. Two.")).flatten = sentencesOf "One. Two." := by
  have h := (estimate_segments_amended "One. Two." 10).2.2 (by decide) (by decide)
  exact ⟨h.1, h.2.1, h.2.2.1, h.2.2.2.2.2.2.2.2⟩

/-! ### Theorems for claim C7 (provider-response parsing) -/

/-- C7 (counterexample): on an input where parsing as-is fails and
neither a fenced block nor a brace span exists, `_parse_json` does not
fail — it silently returns the empty dict. -/
theorem parse_json_silent_empty_counterexample :
    loadsModel "hello" = none ∧ findFenced "hello" = none ∧
    braceSpan "hello" = none ∧ pyParseJson "hello" = .ok (.obj []) :=
  ⟨rfl, rfl, rfl, rfl⟩

/-- C7 (amended): the parser returns the input parsed as-is when that
succeeds; else the JSON of the fenced block when one is found (failing
when that block does not parse); else the first-to-last brace span
(failing when it does not parse); and when no tier applies it returns
an empty object rather than failing. -/
theorem parse_json_amended (raw : String) :
    (∀ v, loadsModel raw = some v → pyParseJson raw = .ok v) ∧
    (loadsModel raw = none → ∀ g, findFenced raw = some g →
      pyParseJson raw = (match loadsModel g with
        | some v => .ok v
        | none => .error "JSONDecodeError")) ∧
    (loadsModel raw = none → findFenced raw = none → ∀ g, braceSpan raw = some g →
      pyParseJson raw = (match loadsModel g with
        | some v => .ok v
        | none => .error "JSONDecodeError")) ∧
    (loadsModel raw = none → findFenced raw = none → braceSpan raw = none →
      pyParseJson raw = .ok (.obj [])) := by
  refine ⟨?_, ?_, ?_, ?_⟩
  · intro v h
    simp [pyParseJson, h]
  · intro h1 g h2
    simp [pyParseJson, h1, h2]
  · intro h1 h2 g h3
    simp [pyParseJson, h1, h2, h3]
  · intro h1 h2 h3
    simp [pyParseJson, h1, h2, h3]

/-- C7 (witness): all four tiers at concrete inputs — valid JSON,
a fenced block, a bare brace span, and no recoverable JSON at all. -/
theorem parse_json_amended_witness :
    pyParseJson "\x7b\"a\": 1\x7d" = .ok (.obj [("a", .num 1)]) ∧
    pyParseJson "x ```json \x7b\"a\": 1\x7d ``` y" = .ok (.obj [("a", .num 1)]) ∧
    pyParseJson "noise \x7b\"a\": 1\x7d end" = .ok (.obj [("a", .num 1)]) ∧
    pyParseJson "no json here" = .ok (.obj []) :=
  ⟨(parse_json_amended "\x7b\"a\": 1\x7d").1 _ rfl,
   ((parse_json_amended "x ```json \x7b\"a\": 1\x7d ``` y").2.1 rfl
     "\x7b\"a\": 1\x7d" rfl).trans rfl,
   ((parse_json_amended "noise \x7b\"a\": 1\x7d end").2.2.1 rfl rfl
     "\x7b\"a\": 1\x7d" rfl).trans rfl,
   (parse_json_amended "no json here").2.2.2 rfl rfl rfl⟩

/-! ### Dictionary lemmas for the summary shape -/

theorem except_bind_ok {α β : Type} {x : Except String α} {f : α → Except String β}
    {b : β} : x >>= f = .ok b ↔ ∃ a, x = .ok a ∧ f a = .ok b := by
  cases x <;> simp [Bind.bind, Except.bind]

theorem lookupKey_append_left {k : String} {v : Json}
    {es es2 : List (String × Json)} (h : lookupKey k es = some v) :
    lookupKey k (es ++ es2) = some v := by
  induction es with
  | nil => simp [lookupKey] at h
  | cons p rest ih =>
    obtain ⟨k2, w⟩ := p
    by_cases hk : k2 = k
    · simp [lookupKey, hk] at h ⊢
      exact h
    · simp [lookupKey, hk] at h ⊢
      exact ih h

theorem lookupKey_append_right {k : String} {es es2 : List (String × Json)}
    (h : lookupKey k es = none) :
    lookupKey k (es ++ es2) = lookupKey k es2 := by
  induction es with
  | nil => rfl
  | cons p rest ih =>
    obtain ⟨k2, w⟩ := p
    by_cases hk : k2 = k
    · simp [lookupKey, hk] at h
    · simp [lookupKey, hk] at h ⊢
      exact ih h

theorem setDefault_preserve {es : List (String × Json)} {k0 k : String}
    {v0 v : Json} (h : lookupKey k es = some v) :
    lookupKey k (setDefaultEntries es k0 v0) = some v := by
  unfold setDefaultEntries
  split
  · exact h
  · exact lookupKey_append_left h

theorem setDefault_keeps_isSome {es : List (String × Json)} {k0 k : String}
    {v0 : Json} (h : (lookupKey k es).isSome = true) :
    (lookupKey k (setDefaultEntries es k0 v0)).isSome = true := by
  obtain ⟨v, hv⟩ := Option.isSome_iff_exists.mp h
  rw [setDefault_preserve hv]
  rfl

theorem setDefault_isSome_self (es : List (String × Json)) (k0 : String)
    (v0 : Json) : (lookupKey k0 (setDefaultEntries es k0 v0)).isSome = true := by
  unfold setDefaultEntries
  split
  case isTrue h => exact h
  case isFalse h =>
    rw [lookupKey_append_right (Option.not_isSome_iff_eq_none.mp (by simpa using h))]
    simp [lookupKey]

theorem setDefault_missing {es : List (String × Json)} {k0 : String} {v0 : Json}
    (h : lookupKey k0 es = none) :
    lookupKey k0 (setDefaultEntries es k0 v0) = some v0 := by
  unfold setDefaultEntries
  rw [if_neg (by simp [h]), lookupKey_append_right h]
  simp [lookupKey]

theorem setDefault_none_other {es : List (String × Json)} {k0 k : String}
    {v0 : Json} (hk : k0 ≠ k) (h : lookupKey k es = none) :
    lookupKey k (setDefaultEntries es k0 v0) = none := by
  unfold setDefaultEntries
  split
  · exact h
  · rw [lookupKey_append_right h]
    simp [lookupKey, hk]

theorem lookup_replace_isSome (k k0 : String) (v0 : Json) :
    ∀ es : List (String × Json), (lookupKey k es).isSome = true →
      (lookupKey k (es.map (fun p => if p.1 = k0 then (k0, v0) else p))).isSome =
        true := by
  intro es
  induction es with
  | nil => intro h; simp [lookupKey] at h
  | cons p rest ih =>
    intro h
    obtain ⟨k2, w⟩ := p
    simp only [List.map_cons]
    by_cases hk0 : k2 = k0
    · rw [show (if (k2, w).1 = k0 then (k0, v0) else (k2, w)) = (k0, v0) from by
        simp [hk0]]
      by_cases hk : k0 = k
      · simp [lookupKey, hk]
      · have hk2 : ¬ k2 = k := by rw [hk0]; exact hk
        simp only [lookupKey, if_neg hk]
        simp only [lookupKey, if_neg hk2] at h
        exact ih h
    · rw [show (if (k2, w).1 = k0 then (k0, v0) else (k2, w)) = (k2, w) from by
        simp [hk0]]
      by_cases hk : k2 = k
      · simp [lookupKey, hk]
      · simp only [lookupKey, if_neg hk] at h ⊢
        exact ih h

theorem setKey_keeps_isSome {es : List (String × Json)} {k0 k : String}
    {v0 : Json} (h : (lookupKey k es).isSome = true) :
    (lookupKey k (setKeyEntries es k0 v0)).isSome = true := by
  unfold setKeyEntries
  split
  · exact lookup_replace_isSome k k0 v0 es h
  · obtain ⟨v, hv⟩ := Option.isSome_iff_exists.mp h
    rw [lookupKey_append_left hv]
    rfl

/-- The entry list produced by the `setdefault` block on an object. -/
theorem ensureRequired_obj (es : List (String × Json)) :
    ensureRequired (.obj es) = .ok (.obj
      (setDefaultEntries (setDefaultEntries (setDefaultEntries (setDefaultEntries
        (setDefaultEntries es "tl_dr" (.str "")) "key_points" (.arr []))
        "outline" (.arr [])) "action_items" (.arr [])) "timestamps" (.arr []))) := rfl

theorem ensureRequired_ok_shape {j s : Json} (h : ensureRequired j = .ok s) :
    ∃ es, j = .obj es ∧ s = .obj
      (setDefaultEntries (setDefaultEntries (setDefaultEntries (setDefaultEntries
        (setDefaultEntries es "tl_dr" (.str "")) "key_points" (.arr []))
        "outline" (.arr [])) "action_items" (.arr [])) "timestamps" (.arr [])) := by
  cases j with
  | obj es =>
    refine ⟨es, rfl, ?_⟩
    rw [ensureRequired_obj] at h
    exact (Except.ok.inj h).symm
  | null => simp [ensureRequired, jsonSetDefault, Bind.bind, Except.bind] at h
  | bool b => simp [ensureRequired, jsonSetDefault, Bind.bind, Except.bind] at h
  | num n => simp [ensureRequired, jsonSetDefault, Bind.bind, Except.bind] at h
  | str t => simp [ensureRequired, jsonSetDefault, Bind.bind, Except.bind] at h
  | arr xs => simp [ensureRequired, jsonSetDefault, Bind.bind, Except.bind] at h

/-- Shorthand: all five required keys are present in an entry list. -/
def hasRequiredKeys (es : List (String × Json)) : Prop :=
  (lookupKey "tl_dr" es).isSome = true ∧
  (lookupKey "key_points" es).isSome = true ∧
  (lookupKey "outline" es).isSome = true ∧
  (lookupKey "action_items" es).isSome = true ∧
  (lookupKey "timestamps" es).isSome = true

theorem ensure_entries_hasRequired (es : List (String × Json)) :
    hasRequiredKeys
      (setDefaultEntries (setDefaultEntries (setDefaultEntries (setDefaultEntries
        (setDefaultEntries es "tl_dr" (.str "")) "key_points" (.arr []))
        "outline" (.arr [])) "action_items" (.arr [])) "timestamps" (.arr [])) := by
  refine ⟨?_, ?_, ?_, ?_, ?_⟩
  · exact setDefault_keeps_isSome (setDefault_keeps_isSome (setDefault_keeps_isSome
      (setDefault_keeps_isSome (setDefault_isSome_self es "tl_dr" (.str "")))))
  · exact setDefault_keeps_isSome (setDefault_keeps_isSome (setDefault_keeps_isSome
      (setDefault_isSome_self _ "key_points" (.arr []))))
  · exact setDefault_keeps_isSome (setDefault_keeps_isSome
      (setDefault_isSome_self _ "outline" (.arr [])))
  · exact setDefault_keeps_isSome (setDefault_isSome_self _ "action_items" (.arr []))
  · exact setDefault_isSome_self _ "timestamps" (.arr [])

theorem applyTimestamps_shape (llm : String → String → String) (li : String)
    (segments : Option (List Seg)) {es1 : List (String × Json)}
    (hfive : hasRequiredKeys es1) :
    ∃ es2, applyTimestamps llm li segments (.obj es1) = .obj es2 ∧
      hasRequiredKeys es2 := by
  cases segments with
  | none => exact ⟨es1, rfl, hfive⟩
  | some segs =>
    by_cases hlen : 3 < segs.length
    · rcases hl : loadsModel (llm (timestampSystem li) (buildTimestampedText segs)) with
        _ | v
      · exact ⟨es1, by simp [applyTimestamps, hlen, hl], hfive⟩
      · cases v with
        | arr ts =>
          refine ⟨setKeyEntries es1 "timestamps" (.arr ts),
            by simp [applyTimestamps, hlen, hl, jsonSetKey], ?_⟩
          obtain ⟨h1, h2, h3, h4, h5⟩ := hfive
          exact ⟨setKey_keeps_isSome h1, setKey_keeps_isSome h2, setKey_keeps_isSome h3,
            setKey_keeps_isSome h4, setKey_keeps_isSome h5⟩
        | null => exact ⟨es1, by simp [applyTimestamps, hlen, hl], hfive⟩
        | bool b => exact ⟨es1, by simp [applyTimestamps, hlen, hl], hfive⟩
        | num n => exact ⟨es1, by simp [applyTimestamps, hlen, hl], hfive⟩
        | str t => exact ⟨es1, by simp [applyTimestamps, hlen, hl], hfive⟩
        | obj es => exact ⟨es1, by simp [applyTimestamps, hlen, hl], hfive⟩
    · exact ⟨es1, by simp [applyTimestamps, hlen], hfive⟩

/-! ### Theorems for claim C5 (summary output shape) -/

/-- C5: whenever `generate_summary` returns a summary — on the
single-chunk path or the map-reduce path, for any provider responses —
that summary is an object containing all five required fields; and the
`setdefault` block keeps every provided field and fills each missing
field with its empty default. -/
theorem generate_summary_required_fields :
    (∀ llm text style language segments detectedLanguage s,
      generateSummary llm text style language segments detectedLanguage = .ok s →
      ∃ es, s = Json.obj es ∧ hasRequiredKeys es) ∧
    (∀ es, ∃ es2, ensureRequired (.obj es) = .ok (.obj es2) ∧
      (∀ k v, lookupKey k es = some v → lookupKey k es2 = some v) ∧
      (lookupKey "tl_dr" es = none → lookupKey "tl_dr" es2 = some (.str "")) ∧
      (lookupKey "key_points" es = none →
        lookupKey "key_points" es2 = some (.arr [])) ∧
      (lookupKey "outline" es = none → lookupKey "outline" es2 = some (.arr [])) ∧
      (lookupKey "action_items" es = none →
        lookupKey "action_items" es2 = some (.arr [])) ∧
      (lookupKey "timestamps" es = none →
        lookupKey "timestamps" es2 = some (.arr []))) := by
  constructor
  · intro llm text style language segments detectedLanguage s h
    unfold generateSummary at h
    obtain ⟨s0, hs0, h⟩ := except_bind_ok.mp h
    obtain ⟨s1, hs1, h⟩ := except_bind_ok.mp h
    have hs : s = applyTimestamps llm
        (languageInstruction language detectedLanguage) segments s1 := by
      simpa [pure, Except.pure] using h.symm
    obtain ⟨es0, hj, hs1eq⟩ := ensureRequired_ok_shape hs1
    subst hs1eq
    obtain ⟨es2, happ, hfive⟩ := applyTimestamps_shape llm
      (languageInstruction language detectedLanguage) segments
      (ensure_entries_hasRequired es0)
    exact ⟨es2, hs.trans happ, hfive⟩
  · intro es
    refine ⟨_, ensureRequired_obj es, ?_, ?_, ?_, ?_, ?_, ?_⟩
    · intro k v hv
      exact setDefault_preserve (setDefault_preserve (setDefault_preserve
        (setDefault_preserve (setDefault_preserve hv))))
    · intro h
      exact setDefault_preserve (setDefault_preserve (setDefault_preserve
        (setDefault_preserve (setDefault_missing h))))
    · intro h
      exact setDefault_preserve (setDefault_preserve (setDefault_preserve
        (setDefault_missing (setDefault_none_other (by decide) h))))
    · intro h
      exact setDefault_preserve (setDefault_preserve
        (setDefault_missing (setDefault_none_other (by decide)
          (setDefault_none_other (by decide) h))))
    · intro h
      exact setDefault_preserve (setDefault_missing
        (setDefault_none_other (by decide) (setDefault_none_other (by decide)
          (setDefault_none_other (by decide) h))))
    · intro h
      exact setDefault_missing (setDefault_none_other (by decide)
        (setDefault_none_other (by decide) (setDefault_none_other (by decide)
          (setDefault_none_other (by decide) h))))

/-- C5 (witness): the shape theorem applied to a concrete call whose
provider response is unparsable garbage — the output still carries all
five required fields, each defaulted to empty. -/
theorem generate_summary_required_fields_witness :
    hasRequiredKeys [("tl_dr", Json.str ""), ("key_points", Json.arr []),
      ("outline", Json.arr []), ("action_items", Json.arr []),
      ("timestamps", Json.arr [])] := by
  obtain ⟨es, heq, hk⟩ := (generate_summary_required_fields).1
    (fun _ _ => "nonsense") "hi" "medium" "en" none "en"
    (.obj [("tl_dr", .str ""), ("key_points", .arr []), ("outline", .arr []),
      ("action_items", .arr []), ("timestamps", .arr [])]) rfl
  injection heq with h2
  subst h2
  exact hk

/-! ### Theorem for claim C2 (cancellation of a running job)

The first half of the claim holds: cancelling a running job sets
`cancel_requested`.  The second half is a code bug: neither
`process_youtube` nor `process_upload` ever reads the status again, so
`cancel_requested` is never observed; the attempt finalizes the job to
`done` (or `error`), never to `cancelled`, and the configured
`cancel_grace_period_seconds` setting is read nowhere in the workers. -/

/-- C2 (code evaluated at the failing input): cancelling the running job
yields `cancel_requested`, but the worker's own finalization of that
job produces `done` on success and `error` on failure — the orchestrator
never finalizes a `cancel_requested` job to `cancelled`. -/
theorem cancel_requested_is_never_finalized_cancelled :
    (cancelJob jobRunning).map (fun j => j.status) = .ok "cancel_requested" ∧
    (completeAttempt jobCancelReq (.obj [])).status = "done" ∧
    (failAttempt jobCancelReq "boom" "tb").status = "error" ∧
    "done" ≠ "cancelled" ∧ "error" ≠ "cancelled" :=
  ⟨rfl, rfl, rfl, by decide, by decide⟩

/-! ### Theorems for claim C3 (retry endpoint contract) -/

/-- C3: retrying a job that is not in `error` is rejected with HTTP 409;
retrying an `error` job of a known source type mutates the same row
(identity untouched) to `status=queued, progress=0, error=null` and
re-enqueues the matching pipeline entry point. -/
theorem retry_contract (j : JobRecord) :
    (j.status ≠ "error" → retryJob j = .error 409) ∧
    (j.status = "error" → j.source_type = "youtube" ∨ j.source_type = "upload" →
      retryJob j =
        .ok ({ j with status := "queued", progress := 0, error := none },
             pipelineEntry j.source_type)) := by
  constructor
  · intro h
    unfold retryJob
    rw [if_pos h]
  · intro h hs
    unfold retryJob
    rw [if_neg (not_not_intro h), if_pos hs]

/-- C3 (witness): the contract applied to a concrete queued job (409)
and a concrete failed YouTube job (reset and re-enqueued). -/
theorem retry_contract_witness :
    retryJob (initialJob "q1" "upload" 0) = .error 409 ∧
    retryJob jobErrY =
      .ok ({ jobErrY with status := "queued", progress := 0, error := none },
           pipelineEntry jobErrY.source_type) :=
  ⟨(retry_contract (initialJob "q1" "upload" 0)).1 (by decide),
   (retry_contract jobErrY).2 rfl (Or.inl rfl)⟩

/-! ### Theorems for claim C4 (error classification) -/

/-- C4 (counterexample): the claim says every exception message containing
"conversion failed" classifies as `invalid_media_input`, but the code only
matches the longer substring "ffmpeg conversion failed"; the bare message
"conversion failed" classifies as `processing_failed`. -/
theorem classify_error_conversion_failed_counterexample :
    strContains (pyLower "conversion failed") "conversion failed" = true ∧
    (classifyError "conversion failed").code = "processing_failed" ∧
    (classifyError "conversion failed").code ≠ "invalid_media_input" := by
  refine ⟨by decide, by decide, by decide⟩

/-- C4 (amended): a message whose lowercasing contains
"ffmpeg conversion failed" and none of the substrings matched by the
earlier classification rules yields `invalid_media_input` with
`retryable = false`; a message whose lowercasing contains "rate limit"
and none of the substrings matched by the earlier rules yields
`upstream_rate_limited` with `retryable = true`. -/
theorem classify_error_amended :
    (∀ msg : String,
      strContains (pyLower msg) "ffmpeg conversion failed" = true →
      strContains (pyLower msg) "not a bot" = false →
      strContains (pyLower msg) "yt-dlp was blocked" = false →
      strContains (pyLower msg) "cookies" = false →
      (strContains (pyLower msg) "audio duration" = false ∨
        strContains (pyLower msg) "maximum for this model" = false) →
      strContains (pyLower msg) "rate limit" = false →
      strContains (pyLower msg) "429" = false →
      strContains (pyLower msg) "timeout" = false →
      strContains (pyLower msg) "timed out" = false →
      (classifyError msg).code = "invalid_media_input" ∧
        (classifyError msg).retryable = false) ∧
    (∀ msg : String,
      strContains (pyLower msg) "rate limit" = true →
      strContains (pyLower msg) "not a bot" = false →
      strContains (pyLower msg) "yt-dlp was blocked" = false →
      strContains (pyLower msg) "cookies" = false →
      (strContains (pyLower msg) "audio duration" = false ∨
        strContains (pyLower msg) "maximum for this model" = false) →
      (classifyError msg).code = "upstream_rate_limited" ∧
        (classifyError msg).retryable = true) := by
  constructor
  · intro msg h1 h2 h3 h4 h5 h6 h7 h8 h9
    unfold classifyError
    simp only [h1, h2, h3, h4, h6, h7, h8, h9, Bool.or_self, Bool.or_false,
      Bool.false_or, if_false, Bool.false_and]
    rcases h5 with h5 | h5 <;> simp [h5]
  · intro msg h1 h2 h3 h4 h5
    unfold classifyError
    simp only [h1, h2, h3, h4, Bool.or_self, Bool.or_false, Bool.false_or,
      Bool.true_or, if_false, if_true]
    rcases h5 with h5 | h5 <;> simp [h5]

/-- C4 (witness): the amended classification rules applied to concrete
messages. -/
theorem classify_error_amended_witness :
    (classifyError "ffmpeg conversion failed: bad stream").code = "invalid_media_input" ∧
    (classifyError "hit the rate limit").code = "upstream_rate_limited" :=
  ⟨(classify_error_amended.1 "ffmpeg conversion failed: bad stream"
      (by decide) (by decide) (by decide) (by decide) (Or.inl (by decide))
      (by decide) (by decide) (by decide) (by decide)).1,
   (classify_error_amended.2 "hit the rate limit"
      (by decide) (by decide) (by decide) (by decide) (Or.inl (by decide))).1⟩

end AISummary
